import Mathlib

set_option maxHeartbeats 1000000

/-!
Verification development for the Erathia native terrain generator
(`native_terrain_generator.cpp/.h`) and native vegetation dispatcher
(`native_vegetation_dispatcher.cpp/.h`).

The C++ classes are shallowly embedded as pure Lean functions over explicit
state records.  GPU resources are modelled by natural-number handles drawn
from a counter (`0` plays the role of an invalid `RID`); the contents of a
GPU texture or buffer, as observed by `texture_get_data` / `buffer_get_data`,
are supplied by oracle functions `Nat → List Nat` (lists of bytes).  Godot
`Dictionary` values that the code builds with string keys are modelled as
association lists over an enumerated key type (`DKey`), one constructor per
distinct string literal used by the code, which preserves the equality and
inequality of all the keys involved.  Machine floats that the code only ever
compares (the request priority, a Euclidean distance) are modelled by the
squared distance over exact integers, a strictly monotone image of the float
value, so every comparison made by the code is preserved.
-/

/-- Integer 3-vector: models both godot `Vector3i` chunk coordinates and the
(exact-coordinate) `Vector3` player positions fed to the scheduler. -/
structure V3 where
  x : Int
  y : Int
  z : Int
deriving DecidableEq

/-- Association-list lookup (first binding wins), modelling
`std::unordered_map::find` / `Dictionary::has`+`operator[]`. -/
def lookupA {K V : Type} [DecidableEq K] : List (K × V) → K → Option V
  | [], _ => none
  | (k, v) :: rest, key => if key = k then some v else lookupA rest key

/-- Remove every binding of a key, modelling `std::unordered_map::erase`. -/
def eraseA {K V : Type} [DecidableEq K] : List (K × V) → K → List (K × V)
  | [], _ => []
  | (k, v) :: rest, key =>
      if k = key then eraseA rest key else (k, v) :: eraseA rest key

/-- Insert-or-assign a binding, modelling `map[key] = value`.  The model is
faithful up to lookup: `unordered_map` iteration order is unspecified. -/
def insertA {K V : Type} [DecidableEq K] (l : List (K × V)) (k : K) (v : V) :
    List (K × V) :=
  (k, v) :: eraseA l k

theorem lookupA_eraseA_self {K V : Type} [DecidableEq K]
    (l : List (K × V)) (k : K) : lookupA (eraseA l k) k = none := by
  induction l with
  | nil => rfl
  | cons p rest ih =>
      obtain ⟨k0, v0⟩ := p
      by_cases h : k0 = k
      · simp [eraseA, h, ih]
      · simp [eraseA, h, lookupA, Ne.symm h, ih]

theorem lookupA_eraseA_ne {K V : Type} [DecidableEq K]
    (l : List (K × V)) (k k2 : K) (h : k2 ≠ k) :
    lookupA (eraseA l k) k2 = lookupA l k2 := by
  induction l with
  | nil => rfl
  | cons p rest ih =>
      obtain ⟨k0, v0⟩ := p
      by_cases h0 : k0 = k
      · subst h0
        simp [eraseA, lookupA, h, ih]
      · by_cases h2 : k2 = k0
        · simp [eraseA, h0, lookupA, h2]
        · simp [eraseA, h0, lookupA, h2, ih]

theorem lookupA_insertA_self {K V : Type} [DecidableEq K]
    (l : List (K × V)) (k : K) (v : V) :
    lookupA (insertA l k v) k = some v := by
  simp [insertA, lookupA]

theorem lookupA_insertA_ne {K V : Type} [DecidableEq K]
    (l : List (K × V)) (k k2 : K) (v : V) (h : k2 ≠ k) :
    lookupA (insertA l k v) k2 = lookupA l k2 := by
  simp [insertA, lookupA, h, lookupA_eraseA_ne l k k2 h]

/-! ### Byte-level 32-bit word encoding

The GPU result buffers are byte arrays; all scalar fields are 32-bit words
(floats are carried as their 32-bit patterns, matching the `memcpy`
round-trips in the code, which never reinterpret the bits).  Bytes are
little-endian, as produced by `memcpy` of a 32-bit value on the target
platforms. -/

/-- The four little-endian bytes of a 32-bit word. -/
def encodeU32 (n : Nat) : List Nat :=
  [n % 256, n / 256 % 256, n / 65536 % 256, n / 16777216 % 256]

/-- Read a 32-bit little-endian word at a byte offset (out-of-range bytes
read as 0, matching the model of a zero-filled buffer). -/
def readU32 (buf : List Nat) (off : Nat) : Nat :=
  buf.getD off 0 + 256 * buf.getD (off + 1) 0 + 65536 * buf.getD (off + 2) 0 +
    16777216 * buf.getD (off + 3) 0

theorem encodeU32_length (n : Nat) : (encodeU32 n).length = 4 := rfl

theorem getD_append_len {α : Type} (pre l : List α) (k : Nat) (d : α) :
    (pre ++ l).getD (pre.length + k) d = l.getD k d := by
  induction pre with
  | nil => simp
  | cons a pre ih =>
      have h : (a :: pre).length + k = (pre.length + k) + 1 := by
        simp [List.length_cons]; omega
      simp only [List.cons_append, h, List.getD_cons_succ]
      exact ih

theorem readU32_after_pre (pre l : List Nat) (k : Nat) :
    readU32 (pre ++ l) (pre.length + k) = readU32 l k := by
  unfold readU32
  have h1 : pre.length + k + 1 = pre.length + (k + 1) := by omega
  have h2 : pre.length + k + 2 = pre.length + (k + 2) := by omega
  have h3 : pre.length + k + 3 = pre.length + (k + 3) := by omega
  rw [h1, h2, h3, getD_append_len, getD_append_len, getD_append_len,
    getD_append_len]

theorem readU32_here (n : Nat) (rest : List Nat) (h : n < 4294967296) :
    readU32 (encodeU32 n ++ rest) 0 = n := by
  simp only [encodeU32, readU32, List.cons_append, List.nil_append,
    List.getD_cons_zero, List.getD_cons_succ]
  omega

/-- Concatenated little-endian encodings of a list of 32-bit words. -/
def encWords : List Nat → List Nat
  | [] => []
  | w :: ws => encodeU32 w ++ encWords ws

theorem readU32_encWords (ws : List Nat) (rest : List Nat) (i : Nat)
    (hi : i < ws.length) (hw : ws.getD i 0 < 4294967296) :
    readU32 (encWords ws ++ rest) (4 * i) = ws.getD i 0 := by
  induction ws generalizing i rest with
  | nil => simp at hi
  | cons w ws ih =>
      cases i with
      | zero =>
          simp only [List.getD_cons_zero] at hw ⊢
          simpa [encWords, List.append_assoc] using
            readU32_here w (encWords ws ++ rest) hw
      | succ i =>
          have h4 : 4 * (i + 1) = (encodeU32 w).length + 4 * i := by
            simp [encodeU32_length]; omega
          simp only [List.getD_cons_succ] at hw ⊢
          rw [show encWords (w :: ws) ++ rest =
              encodeU32 w ++ (encWords ws ++ rest) by
                simp [encWords, List.append_assoc], h4, readU32_after_pre]
          exact ih rest i (by simpa using hi) hw

/-! ### Vegetation placement records (`native_vegetation_dispatcher.h` 19-28,
`decode_placements` in `native_vegetation_dispatcher.cpp` 255-294)

`PlacementData` mirrors the C++ struct byte for byte: `Vector3` is three
32-bit floats, each `float`/`uint32_t` is one 32-bit word, so
`sizeof(PlacementData) = 48` and the record occupies twelve consecutive
words.  Scalars are carried as 32-bit patterns (Nat below 2^32). -/

/-- The raw GPU-side placement record, including the two padding words. -/
structure PlacementData where
  position_x : Nat
  position_y : Nat
  position_z : Nat
  pad1 : Nat
  normal_x : Nat
  normal_y : Nat
  normal_z : Nat
  pad2 : Nat
  variant_index : Nat
  instance_seed : Nat
  scale : Nat
  rotation_y : Nat
deriving DecidableEq

/-- The decoded placement `Dictionary` built by `decode_placements`:
position, normal, variant index, instance seed, scale, yaw. -/
structure Placement where
  position_x : Nat
  position_y : Nat
  position_z : Nat
  normal_x : Nat
  normal_y : Nat
  normal_z : Nat
  variant_index : Nat
  instance_seed : Nat
  scale : Nat
  rotation_y : Nat
deriving DecidableEq

/-- The dictionary `decode_placements` builds from a raw record (padding
words are dropped). -/
def toPlacement (r : PlacementData) : Placement :=
  { position_x := r.position_x
    position_y := r.position_y
    position_z := r.position_z
    normal_x := r.normal_x
    normal_y := r.normal_y
    normal_z := r.normal_z
    variant_index := r.variant_index
    instance_seed := r.instance_seed
    scale := r.scale
    rotation_y := r.rotation_y }

def MAX_PLACEMENTS : Nat := 4096

/-- All ten data-carrying fields are 32-bit patterns (the padding words are
never read back, so they need no bound). -/
def WfPD (r : PlacementData) : Prop :=
  r.position_x < 4294967296 ∧ r.position_y < 4294967296 ∧
  r.position_z < 4294967296 ∧ r.normal_x < 4294967296 ∧
  r.normal_y < 4294967296 ∧ r.normal_z < 4294967296 ∧
  r.variant_index < 4294967296 ∧ r.instance_seed < 4294967296 ∧
  r.scale < 4294967296 ∧ r.rotation_y < 4294967296

instance (r : PlacementData) : Decidable (WfPD r) := by
  unfold WfPD; infer_instance

/-- The twelve words of one `PlacementData` in memory order. -/
def pdWords (r : PlacementData) : List Nat :=
  [r.position_x, r.position_y, r.position_z, r.pad1,
   r.normal_x, r.normal_y, r.normal_z, r.pad2,
   r.variant_index, r.instance_seed, r.scale, r.rotation_y]

/-- `memcpy` image of one `PlacementData` (48 bytes). -/
def encodePD (r : PlacementData) : List Nat := encWords (pdWords r)

theorem encodePD_length (r : PlacementData) : (encodePD r).length = 48 := by
  simp [encodePD, pdWords, encWords, encodeU32]

/-- Image of a sequence of records at stride 48. -/
def encodeRecords : List PlacementData → List Nat
  | [] => []
  | r :: rs => encodePD r ++ encodeRecords rs

/-- One loop iteration of `decode_placements`: `memcpy(&pd, data + offset,
stride)` followed by building the dictionary. -/
def decodeAt (buf : List Nat) (off : Nat) : Placement :=
  { position_x := readU32 buf off
    position_y := readU32 buf (off + 4)
    position_z := readU32 buf (off + 8)
    normal_x := readU32 buf (off + 16)
    normal_y := readU32 buf (off + 20)
    normal_z := readU32 buf (off + 24)
    variant_index := readU32 buf (off + 32)
    instance_seed := readU32 buf (off + 36)
    scale := readU32 buf (off + 40)
    rotation_y := readU32 buf (off + 44) }

/-- The `for (i = 0; i < placement_count; i++)` loop with its
`offset + stride > buffer_data.size()` break. -/
def decodeLoop (buf : List Nat) : Nat → Nat → List Placement
  | _, 0 => []
  | off, n + 1 =>
      if buf.length < off + 48 then []
      else decodeAt buf off :: decodeLoop buf (off + 48) n

/-- `NativeVegetationDispatcher::decode_placements`
(`native_vegetation_dispatcher.cpp` 255-294): reads the 4-byte count
prefix, clamps it to `MAX_PLACEMENTS`, then decodes records at stride 48
starting at offset 4. -/
def decode_placements (buf : List Nat) : List Placement :=
  if buf.length < 4 then []
  else decodeLoop buf 4 (min (readU32 buf 0) MAX_PLACEMENTS)


theorem decodeAt_encodePD (pre rest : List Nat) (r : PlacementData)
    (hr : WfPD r) :
    decodeAt (pre ++ (encodePD r ++ rest)) pre.length = toPlacement r := by
  obtain ⟨h0, h1, h2, h3, h4, h5, h6, h7, h8, h9⟩ := hr
  have key : ∀ (i w : Nat), (pdWords r).getD i 0 = w → i < 12 →
      w < 4294967296 →
      readU32 (pre ++ (encodePD r ++ rest)) (pre.length + 4 * i) = w := by
    intro i w hgd hi hw
    rw [readU32_after_pre]
    rw [show (encodePD r ++ rest : List Nat) =
        encWords (pdWords r) ++ rest from rfl]
    rw [readU32_encWords (pdWords r) rest i (by simp [pdWords]; omega)
      (hgd ▸ hw)]
    exact hgd
  have e0 : readU32 (pre ++ (encodePD r ++ rest)) pre.length =
      r.position_x := by
    have := key 0 r.position_x rfl (by omega) h0
    simpa using this
  have e1 : readU32 (pre ++ (encodePD r ++ rest)) (pre.length + 4) =
      r.position_y := by
    have := key 1 r.position_y rfl (by omega) h1
    simpa using this
  have e2 : readU32 (pre ++ (encodePD r ++ rest)) (pre.length + 8) =
      r.position_z := by
    have := key 2 r.position_z rfl (by omega) h2
    simpa using this
  have e4 : readU32 (pre ++ (encodePD r ++ rest)) (pre.length + 16) =
      r.normal_x := by
    have := key 4 r.normal_x rfl (by omega) h3
    simpa using this
  have e5 : readU32 (pre ++ (encodePD r ++ rest)) (pre.length + 20) =
      r.normal_y := by
    have := key 5 r.normal_y rfl (by omega) h4
    simpa using this
  have e6 : readU32 (pre ++ (encodePD r ++ rest)) (pre.length + 24) =
      r.normal_z := by
    have := key 6 r.normal_z rfl (by omega) h5
    simpa using this
  have e8 : readU32 (pre ++ (encodePD r ++ rest)) (pre.length + 32) =
      r.variant_index := by
    have := key 8 r.variant_index rfl (by omega) h6
    simpa using this
  have e9 : readU32 (pre ++ (encodePD r ++ rest)) (pre.length + 36) =
      r.instance_seed := by
    have := key 9 r.instance_seed rfl (by omega) h7
    simpa using this
  have e10 : readU32 (pre ++ (encodePD r ++ rest)) (pre.length + 40) =
      r.scale := by
    have := key 10 r.scale rfl (by omega) h8
    simpa using this
  have e11 : readU32 (pre ++ (encodePD r ++ rest)) (pre.length + 44) =
      r.rotation_y := by
    have := key 11 r.rotation_y rfl (by omega) h9
    simpa using this
  simp only [decodeAt, toPlacement, Placement.mk.injEq]
  exact ⟨e0, e1, e2, e4, e5, e6, e8, e9, e10, e11⟩

theorem decodeLoop_encodeRecords (rs : List PlacementData) (pre : List Nat)
    (hw : ∀ r ∈ rs, WfPD r) :
    decodeLoop (pre ++ encodeRecords rs) pre.length rs.length =
      rs.map toPlacement := by
  induction rs generalizing pre with
  | nil => simp [decodeLoop]
  | cons r rs ih =>
      have hApp : pre ++ encodeRecords (r :: rs) =
          (pre ++ encodePD r) ++ encodeRecords rs := by
        rw [show encodeRecords (r :: rs) =
            encodePD r ++ encodeRecords rs from rfl, List.append_assoc]
      have hpre48 : (pre ++ encodePD r).length = pre.length + 48 := by
        simp [encodePD_length]
      have hnb : ¬ (pre ++ encodeRecords (r :: rs)).length <
          pre.length + 48 := by
        rw [hApp, List.length_append, hpre48]
        omega
      have hhead : decodeAt (pre ++ encodeRecords (r :: rs)) pre.length =
          toPlacement r := by
        rw [show pre ++ encodeRecords (r :: rs) =
            pre ++ (encodePD r ++ encodeRecords rs) from by
          rw [show encodeRecords (r :: rs) =
              encodePD r ++ encodeRecords rs from rfl]]
        exact decodeAt_encodePD pre (encodeRecords rs) r (hw r (by simp))
      have htail : decodeLoop (pre ++ encodeRecords (r :: rs))
          (pre.length + 48) rs.length = rs.map toPlacement := by
        have hq := ih (pre ++ encodePD r) (fun q hq => hw q (by simp [hq]))
        rw [hpre48] at hq
        rw [hApp]
        exact hq
      simp only [List.length_cons, decodeLoop]
      rw [if_neg hnb, hhead, htail]
      simp

/-- Claim C9: encoding any sequence of placement records (position, normal,
variant index, instance seed, scale, yaw, each a 32-bit pattern) at the
fixed 48-byte stride after the 4-byte count prefix and decoding with
`decode_placements` recovers every record bit-identically, for every index
below the encoded count. -/
theorem C9_placement_roundtrip (rs : List PlacementData)
    (hw : ∀ r ∈ rs, WfPD r) (hlen : rs.length ≤ MAX_PLACEMENTS) :
    decode_placements (encodeU32 rs.length ++ encodeRecords rs) =
      rs.map toPlacement := by
  have hcount : readU32 (encodeU32 rs.length ++ encodeRecords rs) 0 =
      rs.length := by
    refine readU32_here rs.length (encodeRecords rs) ?_
    have : MAX_PLACEMENTS < 4294967296 := by norm_num [MAX_PLACEMENTS]
    omega
  have htotal : ¬ (encodeU32 rs.length ++ encodeRecords rs).length < 4 := by
    simp [encodeU32]
  have hmin : min (readU32 (encodeU32 rs.length ++ encodeRecords rs) 0)
      MAX_PLACEMENTS = rs.length := by
    rw [hcount]
    omega
  have hloop := decodeLoop_encodeRecords rs (encodeU32 rs.length) hw
  rw [encodeU32_length] at hloop
  rw [decode_placements, if_neg htotal, hmin]
  exact hloop

/-- Concrete placement record used by the C9 witness. -/
def samplePD : PlacementData :=
  { position_x := 1, position_y := 2, position_z := 3, pad1 := 0,
    normal_x := 4, normal_y := 5, normal_z := 6, pad2 := 0,
    variant_index := 7, instance_seed := 8, scale := 9, rotation_y := 10 }

/-- Witness for C9 at a concrete one-record buffer. -/
theorem C9_placement_roundtrip_witness :
    (∀ r ∈ [samplePD], WfPD r) ∧ [samplePD].length ≤ MAX_PLACEMENTS ∧
    decode_placements
        (encodeU32 [samplePD].length ++ encodeRecords [samplePD]) =
      [samplePD].map toPlacement :=
  ⟨by decide, by decide,
    C9_placement_roundtrip [samplePD] (by decide) (by decide)⟩

/-! ### Vegetation placement cache and dispatcher
(`native_vegetation_dispatcher.cpp`)

GPU resources (storage buffers, uniform sets) get handles from a counter;
handle 0 is the invalid `RID`.  `free_rid` calls are recorded in a `freed`
list and `submit()+sync()` pairs in a `submits` counter so that theorems can
talk about released handles and issued dispatches.  The GPU initialization
path (shader compilation) is outside the model: `gpu_ok` stands for
`gpu_initialized` being (or becoming) true, and a failed late
initialization returns an empty result exactly as the code does.  The
numeric generation parameters (density, spacing, noise frequency, slope,
height range, seed) only flow into push constants consumed by the compute
kernel, which is outside the model, so they are not carried. -/

/-- Mirror of the mutable state of `NativeVegetationDispatcher`.  The
`lru_map` of the C++ code is an index into `lru_list` and is kept in
lock-step with it; the list alone determines both. -/
structure VState where
  placement_cache : List (V3 × List (Int × List Placement)) := []
  buffer_cache : List (V3 × List (Int × Nat)) := []
  transform_buffer_cache : List (V3 × List (Int × Nat)) := []
  lru_list : List (V3 × Int) := []
  max_cache_entries : Int := 500
  next_rid : Nat := 1
  freed : List Nat := []
  submits : Nat := 0
  gpu_ok : Bool := true
deriving DecidableEq

/-- The handle the backend returns for the next resource creation;
`allocOk` decides whether the creation succeeds (0 models an invalid
`RID`). -/
def allocHandleV (allocOk : Nat → Bool) (v : VState) : Nat :=
  if allocOk v.next_rid then v.next_rid else 0

/-- Advance the handle counter after a resource creation. -/
def allocAdvanceV (v : VState) : VState :=
  { v with next_rid := v.next_rid + 1 }

/-- Record an `rd->free_rid` call. -/
def freeV (h : Nat) (v : VState) : VState := { v with freed := h :: v.freed }

/-- Lookup in a nested map keyed by chunk then vegetation type. -/
def nestedLookup {A : Type} (m : List (V3 × List (Int × A))) (c : V3)
    (t : Int) : Option A :=
  match lookupA m c with
  | none => none
  | some inner => lookupA inner t

/-- `m[chunk][type] = x` on a nested map. -/
def nestedInsert {A : Type} (m : List (V3 × List (Int × A))) (c : V3)
    (t : Int) (x : A) : List (V3 × List (Int × A)) :=
  insertA m c (insertA ((lookupA m c).getD []) t x)

/-- `m[chunk].erase(type)` followed by dropping the chunk entry when its
inner map became empty.  (When the chunk key is absent, `operator[]` in the
C++ code default-constructs an empty inner map and immediately erases the
chunk again, a net no-op, which this definition also performs.) -/
def nestedErase {A : Type} (m : List (V3 × List (Int × A))) (c : V3)
    (t : Int) : List (V3 × List (Int × A)) :=
  match lookupA m c with
  | none => m
  | some inner =>
      let inner2 := eraseA inner t
      if inner2.isEmpty then eraseA m c else insertA m c inner2

/-- `NativeVegetationDispatcher::update_lru_access`
(`native_vegetation_dispatcher.cpp` 200-210): remove the key from the
recency list if present, then push it to the front. -/
def update_lru_access (v : VState) (c : V3) (t : Int) : VState :=
  let l := (c, t) :: v.lru_list.filter (fun p => decide (p ≠ (c, t)))
  { v with lru_list := l }

/-- `NativeVegetationDispatcher::evict_lru_entry`
(`native_vegetation_dispatcher.cpp` 212-253): pop the least-recently-used
(chunk, type) pair from the back of the recency list, remove its decoded
placement list, and release and remove its placement and transform GPU
buffers when present. -/
def evict_lru_entry (v : VState) : VState :=
  match v.lru_list.getLast? with
  | none => v
  | some oldest =>
      let v1 := { v with lru_list := v.lru_list.dropLast }
      let pc2 := nestedErase v1.placement_cache oldest.1 oldest.2
      let v2 := { v1 with placement_cache := pc2 }
      let v3 :=
        match nestedLookup v2.buffer_cache oldest.1 oldest.2 with
        | none => v2
        | some h =>
            let va := if h ≠ 0 then freeV h v2 else v2
            let bc2 := nestedErase va.buffer_cache oldest.1 oldest.2
            { va with buffer_cache := bc2 }
      match nestedLookup v3.transform_buffer_cache oldest.1 oldest.2 with
      | none => v3
      | some h =>
          let vb := if h ≠ 0 then freeV h v3 else v3
          let tc2 := nestedErase vb.transform_buffer_cache oldest.1 oldest.2
          { vb with transform_buffer_cache := tc2 }

/-- Total decoded-entry count across all chunks (the `cache_size` sum in
`generate_placements`). -/
def vegCacheSize (v : VState) : Nat :=
  (v.placement_cache.map (fun p => p.2.length)).sum

/-- The `while (cache_size > max_cache_entries)` loop: the count is
computed once and decremented per iteration, so the loop body runs exactly
`cache_size - max_cache_entries` times when that is positive. -/
def applyEvicts : Nat → VState → VState
  | 0, v => v
  | n + 1, v => applyEvicts n (evict_lru_entry v)

/-- `NativeVegetationDispatcher::generate_placements`
(`native_vegetation_dispatcher.cpp` 296-509).  `terrainSdf` models the
`get_sdf_texture_for_chunk` call on the terrain dispatcher (0 when no
dispatcher is set or the chunk has no valid SDF texture yet); `biomeOk`
models `biome_map_texture.is_valid()`; `bufContent` models
`rd->buffer_get_data` on the result buffer.  Returns the placement list
given to the caller together with the successor state. -/
def generate_placements (allocOk : Nat → Bool) (terrainSdf : V3 → Nat)
    (biomeOk : Bool) (bufContent : Nat → List Nat) (v : VState)
    (chunk_origin : V3) (veg_type : Int) (cpu_fallback : Bool) :
    VState × List Placement :=
  if ¬ v.gpu_ok then (v, []) else
  match nestedLookup v.placement_cache chunk_origin veg_type with
  | some cached => (update_lru_access v chunk_origin veg_type, cached)
  | none =>
    if ¬ biomeOk then (v, []) else
    let sdfTex := terrainSdf chunk_origin
    if sdfTex = 0 then (v, []) else
    let storage_buffer := allocHandleV allocOk v
    let v := allocAdvanceV v
    let uniform_set := allocHandleV allocOk v
    let v := allocAdvanceV v
    if uniform_set = 0 then (freeV storage_buffer v, []) else
    let v := { v with submits := v.submits + 1 }
    let bc := nestedInsert v.buffer_cache chunk_origin veg_type
        storage_buffer
    let v := { v with buffer_cache := bc }
    let placements :=
      if cpu_fallback then decode_placements (bufContent storage_buffer)
      else []
    let pc := nestedInsert v.placement_cache chunk_origin veg_type
        placements
    let v := { v with placement_cache := pc }
    let v := update_lru_access v chunk_origin veg_type
    let evictCount := ((vegCacheSize v : Int) - v.max_cache_entries).toNat
    let v := applyEvicts evictCount v
    let v := freeV uniform_set v
    (v, placements)

/-- Chunk coordinates used in the concrete cache scenarios. -/
def originA : V3 := ⟨0, 0, 0⟩

def originB : V3 := ⟨32, 0, 0⟩

def originC : V3 := ⟨64, 0, 0⟩

/-- GPU allocation oracle on which every resource creation succeeds. -/
def allocAll : Nat → Bool := fun _ => true

/-- Terrain provider reporting a valid SDF texture for every chunk. -/
def sdfAll : V3 → Nat := fun _ => 100

/-- Terrain provider reporting no valid SDF texture for any chunk (no
terrain dispatcher set, or the chunk not yet generated). -/
def sdfNone : V3 → Nat := fun _ => 0

/-- Buffer readback oracle returning an empty byte array. -/
def bufEmpty : Nat → List Nat := fun _ => []

/-- Vegetation dispatcher configured with `max_cache_entries = 2`. -/
def vegInit2 : VState := { max_cache_entries := 2 }

def vegS1 : VState :=
  (generate_placements allocAll sdfAll true bufEmpty vegInit2 originA 0
    true).1

def vegS2 : VState :=
  (generate_placements allocAll sdfAll true bufEmpty vegS1 originB 0 true).1

def vegS3 : VState :=
  (generate_placements allocAll sdfAll true bufEmpty vegS2 originC 0 true).1

/-- A vegetation state holding a single entry (A, 0) that owns both a
placement buffer (handle 6) and a transform buffer (handle 7). -/
def vegTr : VState :=
  { placement_cache := [(originA, [(0, [])])]
    buffer_cache := [(originA, [(0, 6)])]
    transform_buffer_cache := [(originA, [(0, 7)])]
    lru_list := [(originA, 0)]
    max_cache_entries := 2 }

/-- Claim C6: with `max_cache_entries = 2`, inserting vegetation entries for
(A, 0), (B, 0), (C, 0) in order evicts exactly the least-recently-used key
(A, 0) — its decoded placement list and its placement GPU buffer (handle 1)
are removed and the handle released, while the buffers of (B, 0) (handle 3)
and (C, 0) (handle 5) stay cached and unreleased — the decoded-entry count
is at most 2 after every insertion, and eviction of an entry that owns a
transform buffer releases both its placement and its transform handles. -/
theorem C6_lru_eviction :
    nestedLookup vegS3.placement_cache originA 0 = none ∧
    (nestedLookup vegS3.placement_cache originB 0).isSome = true ∧
    (nestedLookup vegS3.placement_cache originC 0).isSome = true ∧
    nestedLookup vegS3.buffer_cache originA 0 = none ∧
    nestedLookup vegS3.transform_buffer_cache originA 0 = none ∧
    1 ∈ vegS3.freed ∧
    nestedLookup vegS3.buffer_cache originB 0 = some 3 ∧
    nestedLookup vegS3.buffer_cache originC 0 = some 5 ∧
    3 ∉ vegS3.freed ∧ 5 ∉ vegS3.freed ∧
    vegCacheSize vegS1 ≤ 2 ∧ vegCacheSize vegS2 ≤ 2 ∧
    vegCacheSize vegS3 ≤ 2 ∧
    (evict_lru_entry vegTr).freed = [7, 6] ∧
    (evict_lru_entry vegTr).placement_cache = [] ∧
    (evict_lru_entry vegTr).buffer_cache = [] ∧
    (evict_lru_entry vegTr).transform_buffer_cache = [] ∧
    (evict_lru_entry vegTr).lru_list = [] := by
  decide

/-- Claim C7: a `generate_placements` call whose (chunk, type) key is not
cached and whose terrain provider yields no valid SDF image handle returns
an empty list and leaves the whole dispatcher state — placement cache,
buffer caches, LRU state, allocator, released-handle list, and dispatch
count — unchanged. -/
theorem C7_missing_sdf_noop (allocOk : Nat → Bool) (terrainSdf : V3 → Nat)
    (biomeOk : Bool) (bufContent : Nat → List Nat) (v : VState) (o : V3)
    (t : Int) (cf : Bool)
    (hmiss : nestedLookup v.placement_cache o t = none)
    (hsdf : terrainSdf o = 0) :
    generate_placements allocOk terrainSdf biomeOk bufContent v o t cf =
      (v, []) := by
  unfold generate_placements
  by_cases hg : v.gpu_ok
  · by_cases hb : biomeOk <;> simp [hg, hb, hmiss, hsdf]
  · simp [hg]

/-- Witness for C7 at a concrete state and provider. -/
theorem C7_missing_sdf_noop_witness :
    nestedLookup ({} : VState).placement_cache originA 0 = none ∧
    sdfNone originA = 0 ∧
    generate_placements allocAll sdfNone true bufEmpty ({} : VState)
        originA 0 true = ({}, []) :=
  ⟨rfl, rfl,
    C7_missing_sdf_noop allocAll sdfNone true bufEmpty {} originA 0 true
      rfl rfl⟩

/-! ### Terrain chunk cache and scheduler (`native_terrain_generator.cpp`)

The godot `Dictionary` values the generator builds carry string keys; they
are modelled by the enumerated type `DKey`, one constructor per string
literal occurring in the code, preserving all (in)equalities of those
strings.  The `sdf_cache` `Dictionary` is keyed by `Variant` values that
are either a `Vector3i` (asynchronous path) or the formatted string
`"x_y_z_lod"` (synchronous LOD-0 path); `CKey` models the two variants,
which never compare equal, and the injective string formatting.

The request priority is `chunk_center.distance_to(player_position)`; the
model stores the squared Euclidean distance over exact integers, a
strictly monotone image of the float distance, so the heap order is the
same.  `Time::get_ticks_usec` is modelled by a `now` field of the state
that transition parameters may set. -/

/-- Dictionary keys: one constructor per string literal used by the
generator. -/
inductive DKey
  | sdf
  | material
  | ready
  | gpuComplete
  | sdfData
  | matData
  | sdfTexture
  | materialTexture
deriving DecidableEq

/-- Dictionary values stored by the generator. -/
inductive GVal
  | rid (n : Nat)
  | flag (b : Bool)
  | bytes (bs : List Nat)
deriving DecidableEq

/-- Godot `Dictionary` with the generator key set. -/
abbrev GDict := List (DKey × GVal)

/-- `Dictionary::has`. -/
def hasKeyD (d : GDict) (k : DKey) : Bool := (lookupA d k).isSome

/-- Read a key expected to hold an `RID` (invalid `RID`, handle 0,
otherwise). -/
def getRid (d : GDict) (k : DKey) : Nat :=
  match lookupA d k with
  | some (GVal.rid n) => n
  | _ => 0

/-- Read a key expected to hold a bool (`Variant` converts missing and
non-bool values to false). -/
def getFlag (d : GDict) (k : DKey) : Bool :=
  match lookupA d k with
  | some (GVal.flag b) => b
  | _ => false

/-- `sdf_cache` keys: `Vector3i` origins (background/async path) or the
formatted composite string key `"{x}_{y}_{z}_{lod}"` (synchronous LOD-0
path in `generate_block`). -/
inductive CKey
  | byCoord (c : V3)
  | byStr (c : V3) (lod : Int)
deriving DecidableEq

/-- `ChunkRequest` (`native_terrain_generator.h` 72-81). -/
structure ChunkRequest where
  origin : V3
  lod : Int
  priority : Int
  request_time_us : Nat
deriving DecidableEq

/-- `ChunkGPUState` (`native_terrain_generator.h` 83-95); the unused
`fence` RID (always invalid in the code) is omitted. -/
structure ChunkGPUState where
  sdf_texture : Nat
  material_texture : Nat
  dispatch_time_us : Nat
  completion_time_us : Nat
  gpu_complete : Bool
  cpu_readback_complete : Bool
  physics_needed : Bool
  lod : Int
  sdf_data : List Nat
  mat_data : List Nat
deriving DecidableEq

/-- Mirror of the mutable state of `NativeTerrainGenerator`.  The
`pending_flag_sets`, `dlod` and `completedEver` fields are history
variables: `pending_flag_sets` records `dispatch_chunk_async` calls that
have run `generate_chunk_sdf` but not yet their flag-update section, `dlod`
the LOD each coordinate was last dispatched with, and `completedEver` the
coordinates whose GPU completion the background thread has observed.  They
are written only alongside the corresponding code events and read by no
modelled code path. -/
structure TState where
  chunk_request_queue : List ChunkRequest := []
  chunk_gpu_states : List (V3 × ChunkGPUState) := []
  sdf_cache : List (CKey × GDict) := []
  player_position : V3 := ⟨0, 0, 0⟩
  chunk_size : Int := 32
  frame_gpu_budget_us : Nat := 8000
  current_frame_gpu_time_us : Nat := 0
  chunks_dispatched_this_frame : Nat := 0
  chunks_completed_this_frame : Nat := 0
  total_gpu_time_us : Nat := 0
  total_chunks_generated : Nat := 0
  biome_map_texture : Nat := 0
  cached_sampler : Nat := 0
  gpu_ok : Bool := true
  next_rid : Nat := 1
  freed : List Nat := []
  submits : Nat := 0
  now : Nat := 0
  pending_flag_sets : List (V3 × Int) := []
  dlod : List (V3 × Int) := []
  completedEver : List V3 := []
deriving DecidableEq

/-- The handle the backend returns for the next resource creation (0 when
the creation fails). -/
def allocHandleT (allocOk : Nat → Bool) (st : TState) : Nat :=
  if allocOk st.next_rid then st.next_rid else 0

/-- Advance the handle counter after a resource creation. -/
def allocAdvanceT (st : TState) : TState :=
  { st with next_rid := st.next_rid + 1 }

/-- Record an `rd->free_rid` call. -/
def freeT (h : Nat) (st : TState) : TState :=
  { st with freed := h :: st.freed }

/-- Squared Euclidean distance between two exact integer positions: the
model of the `distance_to` priority (strictly monotone in the float
distance, so all comparisons agree). -/
def distSq (a b : V3) : Int :=
  (a.x - b.x) ^ 2 + (a.y - b.y) ^ 2 + (a.z - b.z) ^ 2

/-- `NativeTerrainGenerator::get_or_create_sampler`
(`native_terrain_generator.cpp` 194-208). -/
def get_or_create_sampler (allocOk : Nat → Bool) (st : TState) : TState :=
  if st.cached_sampler ≠ 0 then st
  else
    let h := allocHandleT allocOk st
    allocAdvanceT { st with cached_sampler := h }

/-- `NativeTerrainGenerator::generate_biome_map_if_needed`
(`native_terrain_generator.cpp` 331-408): lazily create the shared biome
map texture, dispatch its generation once, and free the temporary uniform
set; on failure the texture stays invalid. -/
def generate_biome_map_if_needed (allocOk : Nat → Bool) (st : TState) :
    TState :=
  if st.biome_map_texture ≠ 0 then st
  else if ¬ st.gpu_ok then st
  else
    let htex := allocHandleT allocOk st
    let st := allocAdvanceT st
    if htex = 0 then st
    else
      let hus := allocHandleT allocOk st
      let st := allocAdvanceT st
      if hus = 0 then freeT htex st
      else
        let st := { st with submits := st.submits + 1 }
        let st := freeT hus st
        { st with biome_map_texture := htex }

/-- `NativeTerrainGenerator::generate_chunk_sdf`
(`native_terrain_generator.cpp` 410-516): cache check, allocation of the
two 3D output textures, uniform setup against the shared biome map,
non-blocking dispatch, and insertion of the in-flight `ChunkGPUState`
(with `physics_needed = false` and `lod = 0` defaults).  The returned
dictionary holds keys `"sdf"`, `"material"` and `"ready" = false`. -/
def generate_chunk_sdf (allocOk : Nat → Bool) (st : TState)
    (chunk_origin : V3) : TState × GDict :=
  if ¬ st.gpu_ok then (st, []) else
  let st := generate_biome_map_if_needed allocOk st
  match lookupA st.sdf_cache (CKey.byCoord chunk_origin) with
  | some cached => (st, cached)
  | none =>
    let sdf_texture := allocHandleT allocOk st
    let st := allocAdvanceT st
    if sdf_texture = 0 then (st, []) else
    let material_texture := allocHandleT allocOk st
    let st := allocAdvanceT st
    if material_texture = 0 then (freeT sdf_texture st, []) else
    if st.biome_map_texture = 0 then
      -- biome map unavailable: the code returns an empty Dictionary here
      -- without freeing sdf_texture or material_texture (lines 445-448)
      (st, [])
    else
      let st := get_or_create_sampler allocOk st
      let uniform_set := allocHandleT allocOk st
      let st := allocAdvanceT st
      if uniform_set = 0 then
        (freeT material_texture (freeT sdf_texture st), [])
      else
        let st := { st with submits := st.submits + 1 }
        let st := freeT uniform_set st
        let entry : ChunkGPUState :=
          { sdf_texture := sdf_texture
            material_texture := material_texture
            dispatch_time_us := st.now
            completion_time_us := 0
            gpu_complete := false
            cpu_readback_complete := false
            physics_needed := false
            lod := 0
            sdf_data := []
            mat_data := [] }
        let states := insertA st.chunk_gpu_states chunk_origin entry
        let st := { st with chunk_gpu_states := states }
        (st, [(DKey.sdf, GVal.rid sdf_texture),
              (DKey.material, GVal.rid material_texture),
              (DKey.ready, GVal.flag false)])

/-- `NativeTerrainGenerator::enqueue_chunk_request`
(`native_terrain_generator.cpp` 805-827): the stored player position is
replaced only when the argument differs from `Vector3(0,0,0)`; the request
priority is the distance from the chunk center to the resulting stored
position. -/
def enqueue_chunk_request (st : TState) (origin : V3) (lod : Int)
    (player_pos : V3) : TState :=
  let st1 := if player_pos ≠ (⟨0, 0, 0⟩ : V3)
    then { st with player_position := player_pos } else st
  let center : V3 :=
    ⟨origin.x + st1.chunk_size / 2, origin.y + st1.chunk_size / 2,
     origin.z + st1.chunk_size / 2⟩
  let request : ChunkRequest :=
    { origin := origin, lod := lod,
      priority := distSq center st1.player_position,
      request_time_us := st1.now }
  { st1 with chunk_request_queue := request :: st1.chunk_request_queue }

/-- The flag-update section of `NativeTerrainGenerator::dispatch_chunk_async`
(`native_terrain_generator.cpp` 892-900): re-find the in-flight entry and
set its LOD and `physics_needed = (lod == 0)`. -/
def dispatch_set_flags (st : TState) (origin : V3) (lod : Int) : TState :=
  match lookupA st.chunk_gpu_states origin with
  | none => st
  | some e =>
      let e2 := { e with lod := lod, physics_needed := decide (lod = 0) }
      let states := insertA st.chunk_gpu_states origin e2
      { st with chunk_gpu_states := states }

/-- `NativeTerrainGenerator::dispatch_chunk_async`
(`native_terrain_generator.cpp` 888-901) as one step: `generate_chunk_sdf`
followed by the flag update, with the dispatched LOD recorded in the
`dlod` history variable. -/
def dispatch_chunk_async (allocOk : Nat → Bool) (st : TState) (origin : V3)
    (lod : Int) : TState :=
  let st1 := (generate_chunk_sdf allocOk st origin).1
  let st1 := { st1 with dlod := (origin, lod) :: st1.dlod }
  dispatch_set_flags st1 origin lod

/-- Extract a minimal-priority request from the pending queue.  It models
`std::priority_queue::top/pop` with the `ChunkRequest::operator<` of
`native_terrain_generator.h` 78-80 (min-heap on `priority`); among equal
priorities the heap order is unspecified, and this refinement takes the
earliest-pushed one. -/
def popMin : List ChunkRequest → Option (ChunkRequest × List ChunkRequest)
  | [] => none
  | a :: as =>
      match popMin as with
      | none => some (a, [])
      | some (b, bs) =>
          if a.priority ≤ b.priority then some (a, as)
          else some (b, a :: bs)

/-- The dispatch loop of `NativeTerrainGenerator::process_chunk_queue`
(`native_terrain_generator.cpp` 856-885): pop requests while the
accumulated frame GPU time is under budget; skip (without consuming
budget) any request whose coordinate is already cached or in flight;
dispatch the rest, charging the measured average GPU time per chunk (2000
microseconds before any measurement exists).  Returns the state and the
dispatched requests in order.  `fuel` bounds the iterations; one queue
element is consumed per call, so the queue length suffices. -/
def drainLoop (allocOk : Nat → Bool) :
    Nat → TState → List ChunkRequest → TState × List ChunkRequest
  | 0, st, acc => (st, acc.reverse)
  | fuel + 1, st, acc =>
      if st.chunk_request_queue.isEmpty then (st, acc.reverse)
      else if ¬ st.current_frame_gpu_time_us < st.frame_gpu_budget_us then
        (st, acc.reverse)
      else
        match popMin st.chunk_request_queue with
        | none => (st, acc.reverse)
        | some (request, rest) =>
            let st := { st with chunk_request_queue := rest }
            let in_cache :=
              (lookupA st.sdf_cache (CKey.byCoord request.origin)).isSome
            let in_flight :=
              (lookupA st.chunk_gpu_states request.origin).isSome
            if in_cache ∨ in_flight then drainLoop allocOk fuel st acc
            else
              let st := dispatch_chunk_async allocOk st request.origin
                request.lod
              let dcount := st.chunks_dispatched_this_frame + 1
              let st := { st with chunks_dispatched_this_frame := dcount }
              let est := if st.total_chunks_generated > 0
                then st.total_gpu_time_us / st.total_chunks_generated
                else 2000
              let acct := st.current_frame_gpu_time_us + est
              let st := { st with current_frame_gpu_time_us := acct }
              drainLoop allocOk fuel st (request :: acc)

/-- The in-flight poll at the top of `process_chunk_queue`
(`native_terrain_generator.cpp` 834-853): fold the measured GPU time of
every completed in-flight chunk into the frame accumulator. -/
def pollMeasured (states : List (V3 × ChunkGPUState)) : Nat :=
  (states.map (fun p =>
    if p.2.gpu_complete ∧ p.2.completion_time_us > 0
    then p.2.completion_time_us - p.2.dispatch_time_us else 0)).sum

/-- `NativeTerrainGenerator::process_chunk_queue`
(`native_terrain_generator.cpp` 829-886): reset the frame budget and
telemetry counters, fold in measured GPU times, then run the dispatch
loop.  Returns the state and the list of dispatched requests. -/
def process_chunk_queue (allocOk : Nat → Bool) (st : TState) :
    TState × List ChunkRequest :=
  let st := { st with current_frame_gpu_time_us := 0 }
  let st := { st with chunks_dispatched_this_frame := 0 }
  let st := { st with chunks_completed_this_frame := 0 }
  let measured := pollMeasured st.chunk_gpu_states
  let st := { st with current_frame_gpu_time_us := measured }
  drainLoop allocOk st.chunk_request_queue.length st []

/-- Result of `NativeTerrainGenerator::generate_block`: whether the call
reported the block ready (`max_lod_hint = true`, set only on the two paths
that deliver voxel data). -/
structure GenResult where
  max_lod_hint : Bool
deriving DecidableEq

/-- `NativeTerrainGenerator::generate_block`
(`native_terrain_generator.cpp` 575-656).  The synchronous LOD-0 branch
tests the dictionary returned by `generate_chunk_sdf` for the keys
`"sdf_texture"` and `"material_texture"` (the dictionary actually carries
`"sdf"` and `"material"`); the branch body — bulk decode into the voxel
buffer, cache insertion under the composite string key — is modelled
faithfully behind that test.  `gpuTex` models `rd->texture_get_data`. -/
def generate_block (allocOk : Nat → Bool) (gpuTex : Nat → List Nat)
    (st : TState) (origin : V3) (lod : Int) : TState × GenResult :=
  if ¬ st.gpu_ok then (st, ⟨false⟩) else
  let cache_key := CKey.byStr origin lod
  match lookupA st.sdf_cache cache_key with
  | some cached =>
      if hasKeyD cached DKey.sdfData ∧ hasKeyD cached DKey.matData then
        -- cache hit: decode the stored byte buffers into the caller buffer
        (st, ⟨true⟩)
      else if lod > 0 then
        (enqueue_chunk_request st origin lod st.player_position, ⟨false⟩)
      else
        genBlockSync allocOk gpuTex st origin lod
  | none =>
      if lod > 0 then
        (enqueue_chunk_request st origin lod st.player_position, ⟨false⟩)
      else
        genBlockSync allocOk gpuTex st origin lod
where
  /-- The LOD-0 tail of `generate_block` (lines 634-655). -/
  genBlockSync (allocOk : Nat → Bool) (gpuTex : Nat → List Nat)
      (st : TState) (origin : V3) (lod : Int) : TState × GenResult :=
    let gr := generate_chunk_sdf allocOk st origin
    let st := gr.1
    let gpu_result := gr.2
    if hasKeyD gpu_result DKey.sdfTexture ∧
        hasKeyD gpu_result DKey.materialTexture then
      let sdf_tex := getRid gpu_result DKey.sdfTexture
      let mat_tex := getRid gpu_result DKey.materialTexture
      let cache_entry : GDict :=
        [(DKey.sdfData, GVal.bytes (gpuTex sdf_tex)),
         (DKey.matData, GVal.bytes (gpuTex mat_tex))]
      let cache := insertA st.sdf_cache (CKey.byStr origin lod) cache_entry
      ({ st with sdf_cache := cache }, ⟨true⟩)
    else
      (st, ⟨false⟩)

/-- Result of `NativeTerrainGenerator::get_chunk_gpu_textures`. -/
structure PollResult where
  ready : Bool
  has_cpu_data : Bool
  sdf : Nat
  material : Nat
deriving DecidableEq

/-- `NativeTerrainGenerator::get_chunk_gpu_textures`
(`native_terrain_generator.cpp` 1054-1098): non-blocking; consult the
completed cache first, then the in-flight map; report ready only when GPU
completion has been recorded. -/
def get_chunk_gpu_textures (st : TState) (origin : V3) : PollResult :=
  let fromStates : PollResult :=
    match lookupA st.chunk_gpu_states origin with
    | some e =>
        if e.gpu_complete then
          { ready := true, has_cpu_data := e.cpu_readback_complete,
            sdf := e.sdf_texture, material := e.material_texture }
        else
          { ready := false, has_cpu_data := false, sdf := 0,
            material := 0 }
    | none =>
        { ready := false, has_cpu_data := false, sdf := 0, material := 0 }
  match lookupA st.sdf_cache (CKey.byCoord origin) with
  | some cached =>
      if hasKeyD cached DKey.sdf ∧ hasKeyD cached DKey.material ∧
          hasKeyD cached DKey.gpuComplete then
        if getFlag cached DKey.gpuComplete then
          { ready := true,
            has_cpu_data := hasKeyD cached DKey.sdfData ∧
              hasKeyD cached DKey.matData,
            sdf := getRid cached DKey.sdf,
            material := getRid cached DKey.material }
        else fromStates
      else fromStates
  | none => fromStates

/-- One chunk of the completion-marking section of
`NativeTerrainGenerator::readback_worker_loop`
(`native_terrain_generator.cpp` 938-952): after the batched `barrier()`,
mark a not-yet-complete in-flight chunk complete, record its measured GPU
time, and log the observation in the `completedEver` history variable. -/
def markOne (t : Nat) (st : TState) (origin : V3) : TState :=
  match lookupA st.chunk_gpu_states origin with
  | none => st
  | some e =>
      if e.gpu_complete then st
      else
        let e2 := { e with gpu_complete := true, completion_time_us := t }
        let states := insertA st.chunk_gpu_states origin e2
        let tot := st.total_gpu_time_us + (t - e.dispatch_time_us)
        let cnt := st.total_chunks_generated + 1
        let ce := origin :: st.completedEver
        { st with chunk_gpu_states := states, total_gpu_time_us := tot,
                  total_chunks_generated := cnt, completedEver := ce }

/-- The whole completion-marking lock section: the worker snapshots the
incomplete in-flight chunks, issues one batched blocking `barrier()`, and
marks each of them complete (entries already complete, or no longer
present, are skipped, so an arbitrary coordinate list is an exact model of
the snapshot). -/
def mark_complete_region (st : TState) (os : List V3) (t : Nat) : TState :=
  os.foldl (markOne t) st

/-- The per-chunk readback-and-migrate section of
`NativeTerrainGenerator::readback_worker_loop`
(`native_terrain_generator.cpp` 956-1004): read the `physics_needed` flag,
perform the CPU readback only when it is set, then move the chunk into the
`sdf_cache` (CPU byte buffers attached only when physics was needed and the
readback produced data) and erase the in-flight entry. -/
def migrate_entry (gpuTex : Nat → List Nat) (e : ChunkGPUState) : GDict :=
  let needs_physics := e.physics_needed
  let sdf_data := if needs_physics then gpuTex e.sdf_texture else []
  let mat_data := if needs_physics then gpuTex e.material_texture else []
  let base : GDict :=
    [(DKey.sdf, GVal.rid e.sdf_texture),
     (DKey.material, GVal.rid e.material_texture),
     (DKey.gpuComplete, GVal.flag true)]
  if needs_physics ∧ ¬ sdf_data.isEmpty ∧ ¬ mat_data.isEmpty then
    base ++ [(DKey.sdfData, GVal.bytes sdf_data),
             (DKey.matData, GVal.bytes mat_data)]
  else base

def readback_migrate (gpuTex : Nat → List Nat) (st : TState) (origin : V3) :
    TState :=
  match lookupA st.chunk_gpu_states origin with
  | none => st
  | some e =>
      let cache := insertA st.sdf_cache (CKey.byCoord origin)
        (migrate_entry gpuTex e)
      let states := eraseA st.chunk_gpu_states origin
      { st with sdf_cache := cache, chunk_gpu_states := states }

/-- GPU texture readback oracle with stub contents (never consumed on the
paths under study). -/
def texStub : Nat → List Nat := fun _ => [0]

/-- State after a first `generate_block(A, lod = 0)` on a fresh generator. -/
def blockS1 : TState × GenResult :=
  generate_block allocAll texStub {} originA 0

/-- State after a second `generate_block(A, lod = 0)`. -/
def blockS2 : TState × GenResult :=
  generate_block allocAll texStub blockS1.1 originA 0

/-- Claim C1 (code evaluated at the failing input): `generate_chunk_sdf`
returns its textures under the keys `"sdf"` and `"material"`, but
`generate_block` tests the result for `"sdf_texture"` and
`"material_texture"`, so the synchronous LOD-0 branch never fires: the
first call does not report ready and caches nothing under the composite
key, and the second call, instead of returning cached content with no new
dispatch, submits a fresh GPU dispatch (submit count 2 to 3) and replaces
the in-flight entry of A with newly allocated textures (7, 8), leaking the
first pair (3, 4), which is never freed. -/
theorem C1_lod0_sync_path_dead :
    blockS1.2.max_lod_hint = false ∧
    blockS2.2.max_lod_hint = false ∧
    blockS1.1.sdf_cache = [] ∧
    blockS2.1.sdf_cache = [] ∧
    blockS1.1.submits = 2 ∧
    blockS2.1.submits = 3 ∧
    (lookupA blockS1.1.chunk_gpu_states originA).map
      (fun e => (e.sdf_texture, e.material_texture)) = some (3, 4) ∧
    (lookupA blockS2.1.chunk_gpu_states originA).map
      (fun e => (e.sdf_texture, e.material_texture)) = some (7, 8) ∧
    3 ∉ blockS2.1.freed ∧ 4 ∉ blockS2.1.freed := by
  decide

/-- Allocation oracle on which only the first creation (the 2048 by 2048
biome map texture, the largest allocation the generator makes) fails. -/
def allocFailBiome : Nat → Bool := fun h => h ≠ 1

/-- State and result of `generate_chunk_sdf` on a fresh generator whose
biome map creation failed. -/
def leakRun : TState × GDict := generate_chunk_sdf allocFailBiome {} originA

/-- Claim C8 (code evaluated at the failing input): when the biome map
texture is unavailable after the two 3D output textures have been
allocated, `generate_chunk_sdf` returns an empty dictionary without
releasing them: handles 2 and 3 were created (allocation counter at 4),
nothing was ever freed, and no cache or in-flight entry refers to them —
both textures leak, contradicting the claimed unwinding. -/
theorem C8_unwind_leaks_on_missing_biome :
    leakRun.2 = [] ∧
    leakRun.1.freed = [] ∧
    leakRun.1.next_rid = 4 ∧
    leakRun.1.biome_map_texture = 0 ∧
    leakRun.1.chunk_gpu_states = [] ∧
    leakRun.1.sdf_cache = [] := by
  decide

/-- A single pending request for chunk A at LOD 1, priority 100. -/
def reqA : ChunkRequest :=
  { origin := originA, lod := 1, priority := 100, request_time_us := 0 }

/-- Fresh scheduler state with four pending copies of the same request:
at least 4 pending requests, none of their coordinates cached or in
flight, frame budget 8000, no measured history. -/
def stDup : TState := { chunk_request_queue := [reqA, reqA, reqA, reqA] }

/-- Counterexample to claim C3 as stated: the state satisfies every stated
precondition (4 pending requests, no coordinate cached or in flight,
budget 8000, zero accumulated time, no history), yet a single tick
dispatches exactly one chunk, not four — after the first dispatch the
shared coordinate is in flight and the remaining requests are skipped. -/
theorem C3_duplicate_queue_counterexample :
    stDup.chunk_request_queue.length = 4 ∧
    stDup.frame_gpu_budget_us = 8000 ∧
    stDup.current_frame_gpu_time_us = 0 ∧
    stDup.total_chunks_generated = 0 ∧
    stDup.sdf_cache = [] ∧
    stDup.chunk_gpu_states = [] ∧
    (process_chunk_queue allocAll stDup).2.length = 1 := by
  decide

theorem popMin_none_iff (q : List ChunkRequest) :
    popMin q = none ↔ q = [] := by
  cases q with
  | nil => simp [popMin]
  | cons a as =>
      simp only [popMin]
      cases h : popMin as with
      | none => simp
      | some p =>
          obtain ⟨b, bs⟩ := p
          by_cases hle : a.priority ≤ b.priority <;> simp [hle]

theorem popMin_perm (q : List ChunkRequest) (r : ChunkRequest)
    (q2 : List ChunkRequest) (h : popMin q = some (r, q2)) :
    q.Perm (r :: q2) := by
  induction q generalizing r q2 with
  | nil => simp [popMin] at h
  | cons a as ih =>
      simp only [popMin] at h
      cases hp : popMin as with
      | none =>
          have has : as = [] := (popMin_none_iff as).mp hp
          rw [hp] at h
          simp at h
          obtain ⟨rfl, rfl⟩ := h
          subst has
          rfl
      | some p =>
          obtain ⟨b, bs⟩ := p
          rw [hp] at h
          by_cases hle : a.priority ≤ b.priority
          · simp [hle] at h
            obtain ⟨rfl, rfl⟩ := h
            rfl
          · simp [hle] at h
            obtain ⟨rfl, rfl⟩ := h
            exact ((ih b bs hp).cons a).trans (List.Perm.swap b a bs)

theorem popMin_min (q : List ChunkRequest) (r : ChunkRequest)
    (q2 : List ChunkRequest) (h : popMin q = some (r, q2)) :
    ∀ x ∈ q2, r.priority ≤ x.priority := by
  induction q generalizing r q2 with
  | nil => simp [popMin] at h
  | cons a as ih =>
      simp only [popMin] at h
      cases hp : popMin as with
      | none =>
          rw [hp] at h
          simp at h
          obtain ⟨rfl, rfl⟩ := h
          simp
      | some p =>
          obtain ⟨b, bs⟩ := p
          rw [hp] at h
          by_cases hle : a.priority ≤ b.priority
          · simp [hle] at h
            obtain ⟨rfl, rfl⟩ := h
            intro x hx
            have hmem : x ∈ b :: bs :=
              (popMin_perm as b bs hp).mem_iff.mp hx
            rcases List.mem_cons.mp hmem with hxb | hxbs
            · subst hxb; exact hle
            · exact le_trans hle (ih b bs hp x hxbs)
          · simp [hle] at h
            obtain ⟨rfl, rfl⟩ := h
            intro x hx
            rcases List.mem_cons.mp hx with hxa | hxbs
            · subst hxa; omega
            · exact ih b bs hp x hxbs

theorem popMin_mem (q : List ChunkRequest) (r : ChunkRequest)
    (q2 : List ChunkRequest) (h : popMin q = some (r, q2)) : r ∈ q :=
  (popMin_perm q r q2 h).mem_iff.mpr (List.mem_cons_self r q2)

theorem popMin_sub (q : List ChunkRequest) (r : ChunkRequest)
    (q2 : List ChunkRequest) (h : popMin q = some (r, q2)) :
    ∀ x ∈ q2, x ∈ q := fun _x hx =>
  (popMin_perm q r q2 h).mem_iff.mpr (List.mem_cons_of_mem r hx)

theorem popMin_length (q : List ChunkRequest) (r : ChunkRequest)
    (q2 : List ChunkRequest) (h : popMin q = some (r, q2)) :
    q.length = q2.length + 1 := by
  have := (popMin_perm q r q2 h).length_eq
  simpa using this

/-- Fields of the scheduler state that the GPU-side dispatch helpers never
touch (they are only read or updated by the queue loop, the enqueue call
and the background worker). -/
def FrameSame (st st2 : TState) : Prop :=
  st2.chunk_request_queue = st.chunk_request_queue ∧
  st2.sdf_cache = st.sdf_cache ∧
  st2.current_frame_gpu_time_us = st.current_frame_gpu_time_us ∧
  st2.frame_gpu_budget_us = st.frame_gpu_budget_us ∧
  st2.total_chunks_generated = st.total_chunks_generated ∧
  st2.total_gpu_time_us = st.total_gpu_time_us ∧
  st2.completedEver = st.completedEver ∧
  st2.now = st.now ∧
  st2.player_position = st.player_position ∧
  st2.chunk_size = st.chunk_size ∧
  st2.chunks_dispatched_this_frame = st.chunks_dispatched_this_frame ∧
  st2.gpu_ok = st.gpu_ok

theorem frameSame_refl (st : TState) : FrameSame st st := by
  simp [FrameSame]

theorem frameSame_trans {s1 s2 s3 : TState} (h1 : FrameSame s1 s2)
    (h2 : FrameSame s2 s3) : FrameSame s1 s3 := by
  unfold FrameSame at *
  obtain ⟨a1, a2, a3, a4, a5, a6, a7, a8, a9, a10, a11, a12⟩ := h1
  obtain ⟨b1, b2, b3, b4, b5, b6, b7, b8, b9, b10, b11, b12⟩ := h2
  exact ⟨b1.trans a1, b2.trans a2, b3.trans a3, b4.trans a4, b5.trans a5,
    b6.trans a6, b7.trans a7, b8.trans a8, b9.trans a9, b10.trans a10,
    b11.trans a11, b12.trans a12⟩

theorem biome_shape (a : Nat → Bool) (st : TState) :
    ∃ b n f s, generate_biome_map_if_needed a st =
      { st with biome_map_texture := b, next_rid := n, freed := f,
                submits := s } := by
  unfold generate_biome_map_if_needed allocHandleT allocAdvanceT freeT
  try dsimp only
  split_ifs
  all_goals exact ⟨_, _, _, _, rfl⟩

theorem sampler_shape (a : Nat → Bool) (st : TState) :
    ∃ c n, get_or_create_sampler a st =
      { st with cached_sampler := c, next_rid := n } := by
  unfold get_or_create_sampler allocHandleT allocAdvanceT
  try dsimp only
  split_ifs
  all_goals exact ⟨_, _, rfl⟩

/-- Shape of `generate_chunk_sdf`: only the GPU bookkeeping fields of the
state change, and the in-flight map is unchanged or gains one fresh entry
(not complete, not physics-flagged, LOD 0, no CPU data) for the origin. -/
theorem gcs_shape (a : Nat → Bool) (st : TState) (o : V3) :
    ∃ b c n f s states2, (generate_chunk_sdf a st o).1 =
      { st with biome_map_texture := b, cached_sampler := c, next_rid := n,
                freed := f, submits := s, chunk_gpu_states := states2 } ∧
      (states2 = st.chunk_gpu_states ∨
        ∃ e : ChunkGPUState, e.gpu_complete = false ∧
          e.physics_needed = false ∧ e.lod = 0 ∧ e.sdf_data = [] ∧
          e.mat_data = [] ∧ states2 = insertA st.chunk_gpu_states o e) := by
  obtain ⟨b0, n0, f0, s0, hb⟩ := biome_shape a st
  have key : ∀ r : TState × GDict, generate_chunk_sdf a st o = r →
      ∃ b c n f s states2, r.1 =
        { st with biome_map_texture := b, cached_sampler := c,
                  next_rid := n, freed := f, submits := s,
                  chunk_gpu_states := states2 } ∧
        (states2 = st.chunk_gpu_states ∨
          ∃ e : ChunkGPUState, e.gpu_complete = false ∧
            e.physics_needed = false ∧ e.lod = 0 ∧ e.sdf_data = [] ∧
            e.mat_data = [] ∧
            states2 = insertA st.chunk_gpu_states o e) := by
    intro r hr
    unfold generate_chunk_sdf get_or_create_sampler allocHandleT
      allocAdvanceT freeT at hr
    rw [hb] at hr
    try dsimp only at hr
    repeat' split at hr
    all_goals subst hr
    all_goals
      first
        | exact ⟨_, _, _, _, _, _, rfl, Or.inl rfl⟩
        | exact ⟨_, _, _, _, _, _, rfl,
            Or.inr ⟨_, rfl, rfl, rfl, rfl, rfl, rfl⟩⟩
  exact key _ rfl

theorem gcs_frameSame (a : Nat → Bool) (st : TState) (o : V3) :
    FrameSame st (generate_chunk_sdf a st o).1 := by
  obtain ⟨b, c, n, f, s, states2, heq, _⟩ := gcs_shape a st o
  rw [heq]
  simp [FrameSame]

theorem gcs_dlod (a : Nat → Bool) (st : TState) (o : V3) :
    (generate_chunk_sdf a st o).1.dlod = st.dlod := by
  obtain ⟨b, c, n, f, s, states2, heq, _⟩ := gcs_shape a st o
  rw [heq]

theorem gcs_pending (a : Nat → Bool) (st : TState) (o : V3) :
    (generate_chunk_sdf a st o).1.pending_flag_sets =
      st.pending_flag_sets := by
  obtain ⟨b, c, n, f, s, states2, heq, _⟩ := gcs_shape a st o
  rw [heq]

theorem gcs_states_cases (a : Nat → Bool) (st : TState) (o : V3) :
    (generate_chunk_sdf a st o).1.chunk_gpu_states =
        st.chunk_gpu_states ∨
      ∃ e : ChunkGPUState, e.gpu_complete = false ∧
        e.physics_needed = false ∧ e.lod = 0 ∧ e.sdf_data = [] ∧
        e.mat_data = [] ∧
        (generate_chunk_sdf a st o).1.chunk_gpu_states =
          insertA st.chunk_gpu_states o e := by
  obtain ⟨b, c, n, f, s, states2, heq, hcase⟩ := gcs_shape a st o
  rw [heq]
  rcases hcase with h | ⟨e, h1, h2, h3, h4, h5, h6⟩
  · left; exact h
  · right; exact ⟨e, h1, h2, h3, h4, h5, h6⟩

theorem eraseA_eraseA {K V : Type} [DecidableEq K]
    (l : List (K × V)) (k : K) :
    eraseA (eraseA l k) k = eraseA l k := by
  induction l with
  | nil => rfl
  | cons p rest ih =>
      obtain ⟨k0, v0⟩ := p
      by_cases h : k0 = k <;> simp [eraseA, h, ih]

theorem insertA_insertA {K V : Type} [DecidableEq K]
    (l : List (K × V)) (k : K) (v v2 : V) :
    insertA (insertA l k v) k v2 = insertA l k v2 := by
  simp [insertA, eraseA, eraseA_eraseA]

theorem dsf_shape (st : TState) (o : V3) (lod : Int) :
    ∃ states2, dispatch_set_flags st o lod =
      { st with chunk_gpu_states := states2 } := by
  unfold dispatch_set_flags
  cases hl : lookupA st.chunk_gpu_states o with
  | none => exact ⟨st.chunk_gpu_states, rfl⟩
  | some e => exact ⟨_, rfl⟩

theorem dsf_states_ne (st : TState) (o x : V3) (lod : Int) (h : x ≠ o) :
    lookupA (dispatch_set_flags st o lod).chunk_gpu_states x =
      lookupA st.chunk_gpu_states x := by
  unfold dispatch_set_flags
  cases hl : lookupA st.chunk_gpu_states o with
  | none => rfl
  | some e =>
      try dsimp only
      exact lookupA_insertA_ne _ o x _ h

theorem dsf_states_self (st : TState) (o : V3) (lod : Int) :
    lookupA (dispatch_set_flags st o lod).chunk_gpu_states o =
      (lookupA st.chunk_gpu_states o).map
        (fun e =>
          { e with lod := lod, physics_needed := decide (lod = 0) }) := by
  unfold dispatch_set_flags
  cases hl : lookupA st.chunk_gpu_states o with
  | none => simp [hl]
  | some e =>
      try dsimp only
      simp [hl, lookupA_insertA_self]

theorem dca_frameSame (a : Nat → Bool) (st : TState) (o : V3) (lod : Int) :
    FrameSame st (dispatch_chunk_async a st o lod) := by
  unfold dispatch_chunk_async
  have h1 := gcs_frameSame a st o
  obtain ⟨states2, h2⟩ := dsf_shape
    { (generate_chunk_sdf a st o).1 with
        dlod := (o, lod) :: (generate_chunk_sdf a st o).1.dlod } o lod
  rw [h2]
  unfold FrameSame at h1 ⊢
  simp_all

theorem dca_pending (a : Nat → Bool) (st : TState) (o : V3) (lod : Int) :
    (dispatch_chunk_async a st o lod).pending_flag_sets =
      st.pending_flag_sets := by
  unfold dispatch_chunk_async
  have h1 := gcs_pending a st o
  obtain ⟨states2, h2⟩ := dsf_shape
    { (generate_chunk_sdf a st o).1 with
        dlod := (o, lod) :: (generate_chunk_sdf a st o).1.dlod } o lod
  rw [h2]
  simp_all

theorem dca_dlod (a : Nat → Bool) (st : TState) (o : V3) (lod : Int) :
    (dispatch_chunk_async a st o lod).dlod = (o, lod) :: st.dlod := by
  unfold dispatch_chunk_async
  have h1 := gcs_dlod a st o
  obtain ⟨states2, h2⟩ := dsf_shape
    { (generate_chunk_sdf a st o).1 with
        dlod := (o, lod) :: (generate_chunk_sdf a st o).1.dlod } o lod
  rw [h2]
  simp_all

theorem dca_states_ne (a : Nat → Bool) (st : TState) (o x : V3) (lod : Int)
    (h : x ≠ o) :
    lookupA (dispatch_chunk_async a st o lod).chunk_gpu_states x =
      lookupA st.chunk_gpu_states x := by
  unfold dispatch_chunk_async
  rw [show ∀ s2 : TState,
      lookupA (dispatch_set_flags s2 o lod).chunk_gpu_states x =
        lookupA s2.chunk_gpu_states x from fun s2 =>
      dsf_states_ne s2 o x lod h]
  rcases gcs_states_cases a st o with hsame | ⟨e, _, _, _, _, _, hins⟩
  · simp [hsame]
  · simp [hins, lookupA_insertA_ne _ o x _ h]

theorem dsf_states_eq (s2 : TState) (o : V3) (lod : Int) :
    (dispatch_set_flags s2 o lod).chunk_gpu_states =
      match lookupA s2.chunk_gpu_states o with
      | none => s2.chunk_gpu_states
      | some e => insertA s2.chunk_gpu_states o
          { e with lod := lod, physics_needed := decide (lod = 0) } := by
  unfold dispatch_set_flags
  cases hl : lookupA s2.chunk_gpu_states o <;> rfl

theorem dca_states_self (a : Nat → Bool) (st : TState) (o : V3) (lod : Int)
    (hs : lookupA st.chunk_gpu_states o = none) :
    ((dispatch_chunk_async a st o lod).chunk_gpu_states =
        st.chunk_gpu_states ∧
      lookupA (dispatch_chunk_async a st o lod).chunk_gpu_states o =
        none) ∨
    ∃ e : ChunkGPUState, e.gpu_complete = false ∧
      e.physics_needed = decide (lod = 0) ∧ e.lod = lod ∧
      e.sdf_data = [] ∧ e.mat_data = [] ∧
      (dispatch_chunk_async a st o lod).chunk_gpu_states =
        insertA st.chunk_gpu_states o e := by
  unfold dispatch_chunk_async
  rw [dsf_states_eq]
  rw [show ({ (generate_chunk_sdf a st o).1 with
      dlod := (o, lod) :: (generate_chunk_sdf a st o).1.dlod } :
        TState).chunk_gpu_states =
      (generate_chunk_sdf a st o).1.chunk_gpu_states from rfl]
  rcases gcs_states_cases a st o with hsame | ⟨e, he1, he2, he3, he4, he5,
    hins⟩
  · rw [hsame, hs]
    exact Or.inl ⟨rfl, hs⟩
  · rw [hins, show lookupA (insertA st.chunk_gpu_states o e) o = some e
      from lookupA_insertA_self _ o e]
    refine Or.inr
      ⟨{ e with lod := lod, physics_needed := decide (lod = 0) },
        he1, rfl, rfl, he4, he5, ?_⟩
    try dsimp only
    rw [insertA_insertA]

theorem dca_queue (a : Nat → Bool) (st : TState) (o : V3) (lod : Int) :
    (dispatch_chunk_async a st o lod).chunk_request_queue =
      st.chunk_request_queue :=
  (dca_frameSame a st o lod).1

theorem dca_cache (a : Nat → Bool) (st : TState) (o : V3) (lod : Int) :
    (dispatch_chunk_async a st o lod).sdf_cache = st.sdf_cache :=
  (dca_frameSame a st o lod).2.1

theorem dca_current (a : Nat → Bool) (st : TState) (o : V3) (lod : Int) :
    (dispatch_chunk_async a st o lod).current_frame_gpu_time_us =
      st.current_frame_gpu_time_us :=
  (dca_frameSame a st o lod).2.2.1

theorem dca_budget (a : Nat → Bool) (st : TState) (o : V3) (lod : Int) :
    (dispatch_chunk_async a st o lod).frame_gpu_budget_us =
      st.frame_gpu_budget_us :=
  (dca_frameSame a st o lod).2.2.2.1

theorem dca_totalcnt (a : Nat → Bool) (st : TState) (o : V3) (lod : Int) :
    (dispatch_chunk_async a st o lod).total_chunks_generated =
      st.total_chunks_generated :=
  (dca_frameSame a st o lod).2.2.2.2.1

/-- Number of whole 2000-microsecond cost estimates that still fit in an
8000-microsecond budget when `c` microseconds are already accumulated. -/
def room (c : Nat) : Nat := (8000 - c + 1999) / 2000

theorem room_le_four (c : Nat) : room c ≤ 4 := by
  unfold room
  omega

/-- Every request in the list refers to a coordinate that is neither in
the completed cache nor in flight. -/
def FreshReqs (q : List ChunkRequest) (st : TState) : Prop :=
  ∀ r ∈ q, lookupA st.sdf_cache (CKey.byCoord r.origin) = none ∧
    lookupA st.chunk_gpu_states r.origin = none

theorem drain_length_le (a : Nat → Bool) (fuel : Nat) :
    ∀ (st : TState) (acc : List ChunkRequest),
      st.frame_gpu_budget_us = 8000 → st.total_chunks_generated = 0 →
      (drainLoop a fuel st acc).2.length ≤
        acc.length + room st.current_frame_gpu_time_us := by
  induction fuel with
  | zero =>
      intro st acc hbudget htot
      simp [drainLoop]
  | succ fuel ih =>
      intro st acc hbudget htot
      rw [drainLoop]
      by_cases hq : st.chunk_request_queue.isEmpty
      · simp [hq]
      · simp only [hq, if_false, Bool.false_eq_true]
        by_cases hc : st.current_frame_gpu_time_us <
            st.frame_gpu_budget_us
        · simp only [hc, not_true, if_true, if_false]
          cases hp : popMin st.chunk_request_queue with
          | none => simp
          | some p =>
              obtain ⟨request, rest⟩ := p
              try dsimp only
              by_cases hskip :
                  (lookupA st.sdf_cache
                    (CKey.byCoord request.origin)).isSome ∨
                  (lookupA
                    ({ st with chunk_request_queue := rest } :
                      TState).chunk_gpu_states request.origin).isSome
              · simp only [if_pos hskip]
                have := ih { st with chunk_request_queue := rest } acc
                  hbudget htot
                simpa using this
              · simp only [if_neg hskip]
                set st3 := dispatch_chunk_async a
                  { st with chunk_request_queue := rest } request.origin
                  request.lod with hst3
                have hb3 : st3.frame_gpu_budget_us = 8000 := by
                  rw [hst3, dca_budget]; exact hbudget
                have ht3 : st3.total_chunks_generated = 0 := by
                  rw [hst3, dca_totalcnt]; exact htot
                have hc3 : st3.current_frame_gpu_time_us =
                    st.current_frame_gpu_time_us := by
                  rw [hst3, dca_current]
                have hest : (if st3.total_chunks_generated > 0
                    then st3.total_gpu_time_us /
                      st3.total_chunks_generated
                    else 2000) = 2000 := by
                  rw [ht3]; simp
                rw [hest]
                have hroom : room (st.current_frame_gpu_time_us + 2000) +
                    1 ≤ room st.current_frame_gpu_time_us := by
                  unfold room
                  rw [hbudget] at hc
                  omega
                refine le_trans (ih _ (request :: acc) ?_ ?_) ?_
                · exact hb3
                · exact ht3
                · show (request :: acc).length +
                      room (st3.current_frame_gpu_time_us + 2000) ≤
                      acc.length + room st.current_frame_gpu_time_us
                  rw [hc3]
                  simp only [List.length_cons]
                  omega
        · simp [hc]

theorem drain_length_exact (a : Nat → Bool) (fuel : Nat) :
    ∀ (st : TState) (acc : List ChunkRequest),
      st.chunk_request_queue.length = fuel →
      st.frame_gpu_budget_us = 8000 → st.total_chunks_generated = 0 →
      FreshReqs st.chunk_request_queue st →
      (st.chunk_request_queue.map (fun r => r.origin)).Nodup →
      (drainLoop a fuel st acc).2.length =
        acc.length + min fuel (room st.current_frame_gpu_time_us) := by
  induction fuel with
  | zero =>
      intro st acc hlen hbudget htot hfresh hnodup
      simp [drainLoop]
  | succ fuel ih =>
      intro st acc hlen hbudget htot hfresh hnodup
      have hne : st.chunk_request_queue ≠ [] := by
        intro hnil
        rw [hnil] at hlen
        simp at hlen
      have hq : st.chunk_request_queue.isEmpty = false := by
        cases hq2 : st.chunk_request_queue with
        | nil => exact absurd hq2 hne
        | cons x xs => simp
      rw [drainLoop]
      simp only [hq, Bool.false_eq_true, if_false]
      by_cases hc : st.current_frame_gpu_time_us < st.frame_gpu_budget_us
      · simp only [hc, not_true, if_false, if_true]
        cases hp : popMin st.chunk_request_queue with
        | none => exact absurd ((popMin_none_iff _).mp hp) hne
        | some p =>
            obtain ⟨request, rest⟩ := p
            try dsimp only
            have hreqmem : request ∈ st.chunk_request_queue :=
              popMin_mem _ _ _ hp
            have hfr := hfresh request hreqmem
            have hskip : ¬ ((lookupA st.sdf_cache
                (CKey.byCoord request.origin)).isSome ∨
                (lookupA
                  ({ st with chunk_request_queue := rest } :
                    TState).chunk_gpu_states request.origin).isSome) := by
              rw [show ({ st with chunk_request_queue := rest } :
                  TState).chunk_gpu_states = st.chunk_gpu_states from rfl]
              rw [hfr.1, hfr.2]
              simp
            simp only [if_neg hskip]
            set st3 := dispatch_chunk_async a
              { st with chunk_request_queue := rest } request.origin
              request.lod with hst3
            have hq3 : st3.chunk_request_queue = rest := by
              rw [hst3, dca_queue]
            have hb3 : st3.frame_gpu_budget_us = 8000 := by
              rw [hst3, dca_budget]; exact hbudget
            have ht3 : st3.total_chunks_generated = 0 := by
              rw [hst3, dca_totalcnt]; exact htot
            have hc3 : st3.current_frame_gpu_time_us =
                st.current_frame_gpu_time_us := by
              rw [hst3, dca_current]
            have hcache3 : st3.sdf_cache = st.sdf_cache := by
              rw [hst3, dca_cache]
            have hperm := popMin_perm _ _ _ hp
            have hnodup2 : (st.chunk_request_queue.map
                (fun r => r.origin)).Nodup ↔
                ((request :: rest).map (fun r => r.origin)).Nodup :=
              (hperm.map (fun r => r.origin)).nodup_iff
            have hnodup3 : ((request :: rest).map
                (fun r => r.origin)).Nodup := hnodup2.mp hnodup
            have hreqnotin : request.origin ∉ rest.map
                (fun r => r.origin) := by
              have := hnodup3
              simp only [List.map_cons, List.nodup_cons] at this
              exact this.1
            have hnodup4 : (rest.map (fun r => r.origin)).Nodup := by
              have := hnodup3
              simp only [List.map_cons, List.nodup_cons] at this
              exact this.2
            have hest : (if st3.total_chunks_generated > 0
                then st3.total_gpu_time_us / st3.total_chunks_generated
                else 2000) = 2000 := by
              rw [ht3]; simp
            rw [hest]
            have hfresh3 : FreshReqs rest
                { st3 with
                    chunks_dispatched_this_frame :=
                      st3.chunks_dispatched_this_frame + 1,
                    current_frame_gpu_time_us :=
                      st3.current_frame_gpu_time_us + 2000 } := by
              intro x hx
              have hxq : x ∈ st.chunk_request_queue :=
                popMin_sub _ _ _ hp x hx
              have hxfr := hfresh x hxq
              have hxne : x.origin ≠ request.origin := by
                intro hxeq
                exact hreqnotin (hxeq ▸ List.mem_map_of_mem
                  (fun r => r.origin) hx)
              constructor
              · rw [show ({ st3 with
                    chunks_dispatched_this_frame :=
                      st3.chunks_dispatched_this_frame + 1,
                    current_frame_gpu_time_us :=
                      st3.current_frame_gpu_time_us + 2000 } :
                    TState).sdf_cache = st3.sdf_cache from rfl, hcache3]
                exact hxfr.1
              · rw [show ({ st3 with
                    chunks_dispatched_this_frame :=
                      st3.chunks_dispatched_this_frame + 1,
                    current_frame_gpu_time_us :=
                      st3.current_frame_gpu_time_us + 2000 } :
                    TState).chunk_gpu_states = st3.chunk_gpu_states from
                  rfl, hst3]
                rw [dca_states_ne a _ request.origin x.origin request.lod
                  hxne]
                exact hxfr.2
            have hlen3 : rest.length = fuel := by
              have := popMin_length _ _ _ hp
              omega
            have hIH := ih
              { st3 with
                  chunks_dispatched_this_frame :=
                    st3.chunks_dispatched_this_frame + 1,
                  current_frame_gpu_time_us :=
                    st3.current_frame_gpu_time_us + 2000 }
              (request :: acc)
              (by
                rw [show ({ st3 with
                    chunks_dispatched_this_frame :=
                      st3.chunks_dispatched_this_frame + 1,
                    current_frame_gpu_time_us :=
                      st3.current_frame_gpu_time_us + 2000 } :
                    TState).chunk_request_queue = st3.chunk_request_queue
                  from rfl, hq3]
                exact hlen3)
              hb3 ht3
              (by
                rw [show ({ st3 with
                    chunks_dispatched_this_frame :=
                      st3.chunks_dispatched_this_frame + 1,
                    current_frame_gpu_time_us :=
                      st3.current_frame_gpu_time_us + 2000 } :
                    TState).chunk_request_queue = st3.chunk_request_queue
                  from rfl, hq3]
                exact hfresh3)
              (by
                rw [show ({ st3 with
                    chunks_dispatched_this_frame :=
                      st3.chunks_dispatched_this_frame + 1,
                    current_frame_gpu_time_us :=
                      st3.current_frame_gpu_time_us + 2000 } :
                    TState).chunk_request_queue = st3.chunk_request_queue
                  from rfl, hq3]
                exact hnodup4)
            rw [hIH]
            show (request :: acc).length +
                min fuel (room (st3.current_frame_gpu_time_us + 2000)) =
              acc.length +
                min (fuel + 1) (room st.current_frame_gpu_time_us)
            rw [hc3]
            simp only [List.length_cons]
            have hrooms : room st.current_frame_gpu_time_us =
                room (st.current_frame_gpu_time_us + 2000) + 1 := by
              unfold room
              rw [hbudget] at hc
              omega
            rw [hrooms]
            omega
      · have hzero : room st.current_frame_gpu_time_us = 0 := by
          unfold room
          rw [hbudget] at hc
          omega
        simp [hc, hzero]

theorem pollMeasured_zero (states : List (V3 × ChunkGPUState))
    (h : ∀ p ∈ states, p.2.gpu_complete = false ∨
      p.2.completion_time_us = 0) :
    pollMeasured states = 0 := by
  induction states with
  | nil => rfl
  | cons p rest ih =>
      have hp := h p (List.mem_cons_self p rest)
      have hcond : ¬ (p.2.gpu_complete = true ∧
          p.2.completion_time_us > 0) := by
        rcases hp with h1 | h1 <;> simp [h1]
      simp only [pollMeasured, List.map_cons, List.sum_cons, if_neg hcond]
      have := ih (fun q hq => h q (List.mem_cons_of_mem p hq))
      simpa [pollMeasured] using this

theorem process_exact (a : Nat → Bool) (st : TState)
    (hb : st.frame_gpu_budget_us = 8000)
    (ht : st.total_chunks_generated = 0)
    (hmeas : ∀ p ∈ st.chunk_gpu_states, p.2.gpu_complete = false ∨
      p.2.completion_time_us = 0)
    (hfresh : FreshReqs st.chunk_request_queue st)
    (hnodup : (st.chunk_request_queue.map (fun r => r.origin)).Nodup) :
    (process_chunk_queue a st).2.length =
      min st.chunk_request_queue.length 4 := by
  unfold process_chunk_queue
  try dsimp only
  rw [pollMeasured_zero st.chunk_gpu_states hmeas]
  refine Eq.trans (drain_length_exact a _ _ [] rfl ?_ ?_ ?_ ?_) ?_
  · exact hb
  · exact ht
  · exact hfresh
  · exact hnodup
  · show [].length + min st.chunk_request_queue.length (room 0) =
      min st.chunk_request_queue.length 4
    norm_num [room]

theorem process_le (a : Nat → Bool) (st : TState)
    (hb : st.frame_gpu_budget_us = 8000)
    (ht : st.total_chunks_generated = 0) :
    (process_chunk_queue a st).2.length ≤ 4 := by
  unfold process_chunk_queue
  try dsimp only
  refine le_trans (drain_length_le a _ _ [] ?_ ?_) ?_
  · exact hb
  · exact ht
  · refine le_trans (Nat.add_le_add_left (room_le_four _) _) ?_
    simp

/-- Amended claim C3: with a frame budget of 8000 microseconds, zero
accumulated measured GPU time, no measured history (cost estimate seeded
at 2000 microseconds) and at least 4 pending requests with pairwise
distinct chunk coordinates, none of which is cached or in flight, a single
`process_chunk_queue` tick dispatches exactly 4 new chunks; and with
budget 8000 and no history any tick dispatches at most 4. -/
theorem C3_budget_amended (a : Nat → Bool) (st : TState)
    (hb : st.frame_gpu_budget_us = 8000)
    (ht : st.total_chunks_generated = 0)
    (hmeas : ∀ p ∈ st.chunk_gpu_states, p.2.gpu_complete = false ∨
      p.2.completion_time_us = 0)
    (hfresh : FreshReqs st.chunk_request_queue st)
    (hnodup : (st.chunk_request_queue.map (fun r => r.origin)).Nodup)
    (hlen : 4 ≤ st.chunk_request_queue.length) :
    (process_chunk_queue a st).2.length = 4 ∧
    ∀ (a2 : Nat → Bool) (st2 : TState),
      st2.frame_gpu_budget_us = 8000 → st2.total_chunks_generated = 0 →
      (process_chunk_queue a2 st2).2.length ≤ 4 := by
  constructor
  · rw [process_exact a st hb ht hmeas hfresh hnodup]
    omega
  · intro a2 st2 hb2 ht2
    exact process_le a2 st2 hb2 ht2

/-- Four pending requests with pairwise distinct coordinates on an
otherwise fresh scheduler. -/
def stFour : TState :=
  { chunk_request_queue :=
      [{ origin := ⟨0, 0, 0⟩, lod := 1, priority := 10,
         request_time_us := 0 },
       { origin := ⟨32, 0, 0⟩, lod := 1, priority := 20,
         request_time_us := 0 },
       { origin := ⟨64, 0, 0⟩, lod := 1, priority := 30,
         request_time_us := 0 },
       { origin := ⟨96, 0, 0⟩, lod := 1, priority := 40,
         request_time_us := 0 }] }

/-- Witness for the amended C3 at a concrete queue of four distinct
requests. -/
theorem C3_budget_amended_witness :
    stFour.frame_gpu_budget_us = 8000 ∧
    stFour.total_chunks_generated = 0 ∧
    4 ≤ stFour.chunk_request_queue.length ∧
    (process_chunk_queue allocAll stFour).2.length = 4 :=
  ⟨rfl, rfl, by decide,
    (C3_budget_amended allocAll stFour rfl rfl (by decide)
      (by
        intro r hr
        exact ⟨rfl, rfl⟩)
      (by decide) (by decide)).1⟩

theorem drain_sorted (a : Nat → Bool) (fuel : Nat) :
    ∀ (st : TState) (acc : List ChunkRequest),
      List.Pairwise (fun x y => y.priority ≤ x.priority) acc →
      (∀ x ∈ acc, ∀ y ∈ st.chunk_request_queue,
        x.priority ≤ y.priority) →
      List.Pairwise (fun x y => x.priority ≤ y.priority)
        (drainLoop a fuel st acc).2 := by
  induction fuel with
  | zero =>
      intro st acc hacc hcross
      simpa [drainLoop, List.pairwise_reverse] using hacc
  | succ fuel ih =>
      intro st acc hacc hcross
      rw [drainLoop]
      by_cases hq : st.chunk_request_queue.isEmpty
      · simpa [hq, List.pairwise_reverse] using hacc
      · simp only [hq, Bool.false_eq_true, if_false]
        by_cases hc : st.current_frame_gpu_time_us <
            st.frame_gpu_budget_us
        · simp only [hc, not_true, if_false, if_true]
          cases hp : popMin st.chunk_request_queue with
          | none => simpa [List.pairwise_reverse] using hacc
          | some p =>
              obtain ⟨request, rest⟩ := p
              try dsimp only
              by_cases hskip :
                  (lookupA st.sdf_cache
                    (CKey.byCoord request.origin)).isSome ∨
                  (lookupA
                    ({ st with chunk_request_queue := rest } :
                      TState).chunk_gpu_states request.origin).isSome
              · simp only [if_pos hskip]
                refine ih { st with chunk_request_queue := rest } acc
                  hacc ?_
                intro x hx y hy
                exact hcross x hx y (popMin_sub _ _ _ hp y hy)
              · simp only [if_neg hskip]
                set st3 := dispatch_chunk_async a
                  { st with chunk_request_queue := rest } request.origin
                  request.lod with hst3
                have hq3 : st3.chunk_request_queue = rest := by
                  rw [hst3, dca_queue]
                refine ih _ (request :: acc) ?_ ?_
                · refine List.Pairwise.cons ?_ hacc
                  intro y hy
                  exact hcross y hy request (popMin_mem _ _ _ hp)
                · intro x hx y hy
                  rw [show ({ st3 with
                      chunks_dispatched_this_frame :=
                        st3.chunks_dispatched_this_frame + 1,
                      current_frame_gpu_time_us :=
                        st3.current_frame_gpu_time_us +
                          (if st3.total_chunks_generated > 0
                           then st3.total_gpu_time_us /
                             st3.total_chunks_generated
                           else 2000) } :
                      TState).chunk_request_queue =
                    st3.chunk_request_queue from rfl, hq3] at hy
                  rcases List.mem_cons.mp hx with hxr | hxa
                  · subst hxr
                    exact popMin_min _ _ _ hp y hy
                  · exact hcross x hxa y (popMin_sub _ _ _ hp y hy)
        · simpa [hc, List.pairwise_reverse] using hacc

/-- Chunk origins whose centers are at distances 10, 300 and 500 from the
world origin (chunk size 32, center = origin + 16 per axis). -/
def origin10 : V3 := ⟨-6, -16, -16⟩

def origin300 : V3 := ⟨284, -16, -16⟩

def origin500 : V3 := ⟨484, -16, -16⟩

/-- Scheduler state after enqueuing requests for chunks at distances 500,
10, 300 from the observer at the origin (the zero player-position argument
leaves the stored observer unchanged). -/
def stq : TState :=
  enqueue_chunk_request
    (enqueue_chunk_request
      (enqueue_chunk_request {} origin500 1 ⟨0, 0, 0⟩)
      origin10 1 ⟨0, 0, 0⟩)
    origin300 1 ⟨0, 0, 0⟩

/-- Claim C4: draining the pending-request queue dispatches requests in
ascending order of their priority value (for every scheduler state), and
in the concrete scenario — requests enqueued at distances 500, 10, 300
from the observer (squared-distance priorities 250000, 100, 90000) — the
dispatch order is the chunk at distance 10, then 300, then 500. -/
theorem C4_priority_order :
    (∀ (a : Nat → Bool) (st : TState),
      List.Pairwise (fun r1 r2 => r1.priority ≤ r2.priority)
        (process_chunk_queue a st).2) ∧
    stq.chunk_request_queue.map (fun r => r.priority) =
      [90000, 100, 250000] ∧
    (process_chunk_queue allocAll stq).2.map (fun r => r.origin) =
      [origin10, origin300, origin500] := by
  refine ⟨?_, by decide, by decide⟩
  intro a st
  unfold process_chunk_queue
  try dsimp only
  refine drain_sorted a _ _ [] (List.Pairwise.nil) ?_
  intro x hx
  exact absurd hx (List.not_mem_nil x)

/-- The request `enqueue_chunk_request` builds when the effective observer
position is `pos`. -/
def builtRequest (st : TState) (origin : V3) (lod : Int) (pos : V3) :
    ChunkRequest :=
  { origin := origin, lod := lod,
    priority := distSq
      ⟨origin.x + st.chunk_size / 2, origin.y + st.chunk_size / 2,
       origin.z + st.chunk_size / 2⟩ pos,
    request_time_us := st.now }

/-- Claim C10: `enqueue_chunk_request` updates the stored observer
position only when the player-position argument differs from the exact
zero vector; with a zero argument the stored position is left unchanged
and the pushed request takes its priority from the previously stored
observer position, so a caller located exactly at the world origin cannot
move the observer through this call. -/
theorem C10_observer_zero_guard (st : TState) (origin : V3) (lod : Int)
    (p : V3) :
    (p = ⟨0, 0, 0⟩ →
      (enqueue_chunk_request st origin lod p).player_position =
          st.player_position ∧
      (enqueue_chunk_request st origin lod p).chunk_request_queue =
        builtRequest st origin lod st.player_position ::
          st.chunk_request_queue) ∧
    (p ≠ ⟨0, 0, 0⟩ →
      (enqueue_chunk_request st origin lod p).player_position = p ∧
      (enqueue_chunk_request st origin lod p).chunk_request_queue =
        builtRequest st origin lod p :: st.chunk_request_queue) := by
  unfold enqueue_chunk_request builtRequest
  by_cases hp : p = (⟨0, 0, 0⟩ : V3)
  · subst hp
    constructor
    · intro _
      simp
    · intro hne
      exact absurd rfl hne
  · constructor
    · intro h0
      exact absurd h0 hp
    · intro _
      simp [hp]

/-- A scheduler whose stored observer position is (5, 5, 5). -/
def stObs : TState := { player_position := ⟨5, 5, 5⟩ }

/-- Witness for C10: with a zero player-position argument the observer
stays at (5, 5, 5) and the priority is computed against it; with a
nonzero argument the observer moves. -/
theorem C10_observer_zero_guard_witness :
    ((⟨0, 0, 0⟩ : V3) = ⟨0, 0, 0⟩ →
      (enqueue_chunk_request stObs originA 1
          ⟨0, 0, 0⟩).player_position = stObs.player_position ∧
      (enqueue_chunk_request stObs originA 1
          ⟨0, 0, 0⟩).chunk_request_queue =
        builtRequest stObs originA 1 stObs.player_position ::
          stObs.chunk_request_queue) ∧
    ((⟨0, 0, 0⟩ : V3) ≠ ⟨0, 0, 0⟩ →
      (enqueue_chunk_request stObs originA 1
          ⟨0, 0, 0⟩).player_position = ⟨0, 0, 0⟩ ∧
      (enqueue_chunk_request stObs originA 1
          ⟨0, 0, 0⟩).chunk_request_queue =
        builtRequest stObs originA 1 ⟨0, 0, 0⟩ ::
          stObs.chunk_request_queue) :=
  C10_observer_zero_guard stObs originA 1 ⟨0, 0, 0⟩

/-- Readiness as reported from an in-flight entry. -/
def stateReady (s : TState) (C : V3) : Bool :=
  match lookupA s.chunk_gpu_states C with
  | some e => e.gpu_complete
  | none => false

/-- The cache-entry readiness test of `get_chunk_gpu_textures`: the entry
has the `"sdf"`, `"material"` and `"gpu_complete"` keys and the latter is
true. -/
def cacheReady (d : GDict) : Bool :=
  hasKeyD d DKey.sdf && (hasKeyD d DKey.material &&
    (hasKeyD d DKey.gpuComplete && getFlag d DKey.gpuComplete))

/-- The non-blocking readiness poll. -/
def pollReady (s : TState) (C : V3) : Bool :=
  (get_chunk_gpu_textures s C).ready

theorem pollReady_char (s : TState) (C : V3) :
    pollReady s C =
      match lookupA s.sdf_cache (CKey.byCoord C) with
      | some d => if cacheReady d then true else stateReady s C
      | none => stateReady s C := by
  unfold pollReady get_chunk_gpu_textures cacheReady stateReady
  cases hd : lookupA s.sdf_cache (CKey.byCoord C) with
  | none =>
      try dsimp only
      cases he : lookupA s.chunk_gpu_states C with
      | none => simp
      | some e => by_cases hc : e.gpu_complete <;> simp [hc]
  | some d =>
      try dsimp only
      by_cases h1 : hasKeyD d DKey.sdf = true
      · by_cases h2 : hasKeyD d DKey.material = true
        · by_cases h3 : hasKeyD d DKey.gpuComplete = true
          · by_cases h4 : getFlag d DKey.gpuComplete = true
            · simp [h1, h2, h3, h4]
            · simp only [h1, h2, h3, h4]
              simp only [Bool.not_eq_true] at h4
              simp [h1, h2, h3, h4]
              cases he : lookupA s.chunk_gpu_states C with
              | none => simp
              | some e => by_cases hc : e.gpu_complete <;> simp [hc]
          · simp only [Bool.not_eq_true] at h3
            simp [h1, h2, h3]
            cases he : lookupA s.chunk_gpu_states C with
            | none => simp
            | some e => by_cases hc : e.gpu_complete <;> simp [hc]
        · simp only [Bool.not_eq_true] at h2
          simp [h1, h2]
          cases he : lookupA s.chunk_gpu_states C with
          | none => simp
          | some e => by_cases hc : e.gpu_complete <;> simp [hc]
      · simp only [Bool.not_eq_true] at h1
        simp [h1]
        cases he : lookupA s.chunk_gpu_states C with
        | none => simp
        | some e => by_cases hc : e.gpu_complete <;> simp [hc]

theorem enqueue_frame (st : TState) (o : V3) (lod : Int) (p : V3) :
    (enqueue_chunk_request st o lod p).sdf_cache = st.sdf_cache ∧
    (enqueue_chunk_request st o lod p).chunk_gpu_states =
      st.chunk_gpu_states ∧
    (enqueue_chunk_request st o lod p).completedEver = st.completedEver ∧
    (enqueue_chunk_request st o lod p).pending_flag_sets =
      st.pending_flag_sets ∧
    (enqueue_chunk_request st o lod p).dlod = st.dlod := by
  unfold enqueue_chunk_request
  by_cases hp : p ≠ (⟨0, 0, 0⟩ : V3) <;> simp [hp]

/-- The `generate_chunk_sdf` portion of a `dispatch_chunk_async` call
popped by `process_chunk_queue`, together with pushing the pending flag
update (the section of `dispatch_chunk_async` still to run) and the
dispatched LOD onto the history variables. -/
def dispatchBeginFn (allocOk : Nat → Bool) (st : TState) (o : V3)
    (lod : Int) : TState :=
  let st1 := (generate_chunk_sdf allocOk st o).1
  { st1 with pending_flag_sets := (o, lod) :: st1.pending_flag_sets,
             dlod := (o, lod) :: st1.dlod }

/-- The flag-update section of a pending `dispatch_chunk_async` call. -/
def dispatchFinishFn (st : TState) (o : V3) (lod : Int) : TState :=
  let st1 := dispatch_set_flags st o lod
  { st1 with pending_flag_sets := st1.pending_flag_sets.erase (o, lod) }

/-- Interleaved events of the asynchronous terrain pipeline, at the
granularity of the lock-protected sections of the code.  Dispatches carry
the guards checked by `process_chunk_queue` before calling
`dispatch_chunk_async` (coordinate neither cached nor in flight), the
path every LOD > 0 request takes; a dispatch is split into its two lock
sections (texture allocation plus state insertion, then the flag update),
between which the background worker may run.  Worker events are the
completion-marking section (after the batched blocking barrier) and the
per-chunk readback-and-migrate section; the latter requires the entry to
be GPU-complete, which holds for every member of the worker's
`to_readback` list (completion is set before insertion into that list and
never reset by any modelled event). -/
inductive TrStep (allocOk : Nat → Bool) (gpuTex : Nat → List Nat) :
    TState → TState → Prop
  | enqueue (st : TState) (o : V3) (lod : Int) (p : V3) :
      TrStep allocOk gpuTex st (enqueue_chunk_request st o lod p)
  | dispatchBegin (st : TState) (o : V3) (lod : Int)
      (hc : lookupA st.sdf_cache (CKey.byCoord o) = none)
      (hs : lookupA st.chunk_gpu_states o = none) :
      TrStep allocOk gpuTex st (dispatchBeginFn allocOk st o lod)
  | dispatchFinish (st : TState) (o : V3) (lod : Int)
      (hp : (o, lod) ∈ st.pending_flag_sets) :
      TrStep allocOk gpuTex st (dispatchFinishFn st o lod)
  | workerMark (st : TState) (os : List V3) (t : Nat) :
      TrStep allocOk gpuTex st (mark_complete_region st os t)
  | workerMigrate (st : TState) (o : V3) (e : ChunkGPUState)
      (he : lookupA st.chunk_gpu_states o = some e)
      (hcomp : e.gpu_complete = true) :
      TrStep allocOk gpuTex st (readback_migrate gpuTex st o)

/-- The generator state at construction time. -/
def initTState : TState := {}

/-- States reachable from a fresh generator through the asynchronous
pipeline events. -/
def ReachT (allocOk : Nat → Bool) (gpuTex : Nat → List Nat)
    (s : TState) : Prop :=
  Relation.ReflTransGen (TrStep allocOk gpuTex) initTState s

theorem migrateEntry_ready (g : Nat → List Nat) (e : ChunkGPUState) :
    cacheReady (migrate_entry g e) = true := by
  unfold migrate_entry
  try dsimp only
  split_ifs <;> simp [cacheReady, hasKeyD, getFlag, lookupA]

theorem markOne_cases (t : Nat) (st : TState) (o : V3) :
    markOne t st o = st ∨
    ∃ e : ChunkGPUState, lookupA st.chunk_gpu_states o = some e ∧
      e.gpu_complete = false ∧
      markOne t st o =
        { st with
            chunk_gpu_states := insertA st.chunk_gpu_states o
              { e with gpu_complete := true, completion_time_us := t },
            total_gpu_time_us :=
              st.total_gpu_time_us + (t - e.dispatch_time_us),
            total_chunks_generated := st.total_chunks_generated + 1,
            completedEver := o :: st.completedEver } := by
  unfold markOne
  cases hl : lookupA st.chunk_gpu_states o with
  | none => left; rfl
  | some e =>
      by_cases hc : e.gpu_complete = true
      · left; simp [hc]
      · right
        simp only [Bool.not_eq_true] at hc
        refine ⟨e, rfl, hc, ?_⟩
        simp [hc]

theorem markOne_poll (t : Nat) (st : TState) (o C : V3)
    (h : pollReady st C = true) : pollReady (markOne t st o) C = true := by
  rcases markOne_cases t st o with hsame | ⟨e, he, hcomp, heq⟩
  · rw [hsame]; exact h
  · by_cases hco : C = o
    · subst hco
      rw [pollReady_char] at h ⊢
      have hsr : stateReady st C = false := by
        unfold stateReady
        simp only [he, hcomp]
      cases hd : lookupA st.sdf_cache (CKey.byCoord C) with
      | some d =>
          simp only [hd] at h
          by_cases hcr : cacheReady d = true
          · rw [heq]
            try dsimp only
            simp only [hd, hcr, if_true]
          · simp only [hcr, Bool.false_eq_true, if_false] at h
            rw [hsr] at h
            exact absurd h (by simp)
      | none =>
          simp only [hd] at h
          rw [hsr] at h
          exact absurd h (by simp)
    · have hpoll : pollReady (markOne t st o) C = pollReady st C := by
        rw [pollReady_char, pollReady_char, heq]
        have hs2 : stateReady
            { st with
                chunk_gpu_states := insertA st.chunk_gpu_states o
                  { e with gpu_complete := true, completion_time_us := t },
                total_gpu_time_us :=
                  st.total_gpu_time_us + (t - e.dispatch_time_us),
                total_chunks_generated := st.total_chunks_generated + 1,
                completedEver := o :: st.completedEver } C =
            stateReady st C := by
          unfold stateReady
          try dsimp only
          rw [lookupA_insertA_ne _ o C _ hco]
        rw [hs2]
      rw [hpoll]
      exact h

theorem stateReady_congr {s s2 : TState} (C : V3)
    (hs : s2.chunk_gpu_states = s.chunk_gpu_states) :
    stateReady s2 C = stateReady s C := by
  unfold stateReady
  rw [hs]

theorem pollReady_congr {s s2 : TState} (C : V3)
    (hc : s2.sdf_cache = s.sdf_cache)
    (hs : s2.chunk_gpu_states = s.chunk_gpu_states) :
    pollReady s2 C = pollReady s C := by
  rw [pollReady_char, pollReady_char, hc, stateReady_congr C hs]

theorem foldl_pres {P : TState → Prop} (f : TState → V3 → TState)
    (h : ∀ s o, P s → P (f s o)) :
    ∀ (os : List V3) (s : TState), P s → P (os.foldl f s) := by
  intro os
  induction os with
  | nil => intro s hs; exact hs
  | cons o os ih => intro s hs; exact ih (f s o) (h s o hs)

theorem dbf_cache (a : Nat → Bool) (st : TState) (o : V3) (lod : Int) :
    (dispatchBeginFn a st o lod).sdf_cache = st.sdf_cache := by
  unfold dispatchBeginFn
  exact (gcs_frameSame a st o).2.1

theorem dbf_ce (a : Nat → Bool) (st : TState) (o : V3) (lod : Int) :
    (dispatchBeginFn a st o lod).completedEver = st.completedEver := by
  unfold dispatchBeginFn
  exact (gcs_frameSame a st o).2.2.2.2.2.2.1

theorem dbf_states_ne (a : Nat → Bool) (st : TState) (o C : V3)
    (lod : Int) (h : C ≠ o) :
    lookupA (dispatchBeginFn a st o lod).chunk_gpu_states C =
      lookupA st.chunk_gpu_states C := by
  unfold dispatchBeginFn
  show lookupA (generate_chunk_sdf a st o).1.chunk_gpu_states C =
    lookupA st.chunk_gpu_states C
  rcases gcs_states_cases a st o with hsame | ⟨e, _, _, _, _, _, hins⟩
  · rw [hsame]
  · rw [hins, lookupA_insertA_ne _ o C _ h]

theorem dbf_states_o (a : Nat → Bool) (st : TState) (o : V3) (lod : Int) :
    lookupA (dispatchBeginFn a st o lod).chunk_gpu_states o =
      lookupA st.chunk_gpu_states o ∨
    ∃ e : ChunkGPUState, e.gpu_complete = false ∧
      lookupA (dispatchBeginFn a st o lod).chunk_gpu_states o = some e := by
  unfold dispatchBeginFn
  show lookupA (generate_chunk_sdf a st o).1.chunk_gpu_states o =
      lookupA st.chunk_gpu_states o ∨ _
  rcases gcs_states_cases a st o with hsame | ⟨e, he1, _, _, _, _, hins⟩
  · left; rw [hsame]
  · right
    exact ⟨e, he1, by rw [hins, lookupA_insertA_self]⟩

theorem dff_cache (st : TState) (o : V3) (lod : Int) :
    (dispatchFinishFn st o lod).sdf_cache = st.sdf_cache := by
  unfold dispatchFinishFn
  obtain ⟨states2, heq⟩ := dsf_shape st o lod
  rw [heq]

theorem dff_ce (st : TState) (o : V3) (lod : Int) :
    (dispatchFinishFn st o lod).completedEver = st.completedEver := by
  unfold dispatchFinishFn
  obtain ⟨states2, heq⟩ := dsf_shape st o lod
  rw [heq]

theorem dff_states (st : TState) (o C : V3) (lod : Int) :
    lookupA (dispatchFinishFn st o lod).chunk_gpu_states C =
      lookupA st.chunk_gpu_states C ∨
    ∃ e : ChunkGPUState, lookupA st.chunk_gpu_states C = some e ∧
      lookupA (dispatchFinishFn st o lod).chunk_gpu_states C =
        some { e with lod := lod, physics_needed := decide (lod = 0) } := by
  by_cases hC : C = o
  · subst hC
    cases hl : lookupA st.chunk_gpu_states C with
    | none =>
        left
        show lookupA (dispatch_set_flags st C lod).chunk_gpu_states C = _
        rw [dsf_states_self, hl]
        simp [hl]
    | some e =>
        right
        refine ⟨e, rfl, ?_⟩
        show lookupA (dispatch_set_flags st C lod).chunk_gpu_states C = _
        rw [dsf_states_self, hl]
        rfl
  · left
    show lookupA (dispatch_set_flags st o lod).chunk_gpu_states C = _
    exact dsf_states_ne st o C lod hC

theorem migrate_eq (g : Nat → List Nat) (st : TState) (o : V3)
    (e : ChunkGPUState) (he : lookupA st.chunk_gpu_states o = some e) :
    readback_migrate g st o =
      { st with
          sdf_cache := insertA st.sdf_cache (CKey.byCoord o)
            (migrate_entry g e),
          chunk_gpu_states := eraseA st.chunk_gpu_states o } := by
  unfold readback_migrate
  simp only [he]

theorem byCoord_inj {C o : V3} (h : C ≠ o) :
    CKey.byCoord C ≠ CKey.byCoord o := by
  intro hk
  exact h (by injection hk)

/-- Inductive invariant of the asynchronous pipeline: a ready in-flight
entry or a completed-cache entry exists only for coordinates whose
completion the worker has observed; cache entries always pass the poll
readiness test; no coordinate is simultaneously in flight and cached; and
every observed coordinate polls ready. -/
def InvT (s : TState) : Prop :=
  (∀ (C : V3) (e : ChunkGPUState),
    lookupA s.chunk_gpu_states C = some e → e.gpu_complete = true →
    C ∈ s.completedEver) ∧
  (∀ (C : V3) (d : GDict),
    lookupA s.sdf_cache (CKey.byCoord C) = some d →
    C ∈ s.completedEver ∧ cacheReady d = true) ∧
  (∀ C : V3, (lookupA s.chunk_gpu_states C).isSome = true →
    lookupA s.sdf_cache (CKey.byCoord C) = none) ∧
  (∀ C ∈ s.completedEver, pollReady s C = true)

theorem migrate_poll_ne (g : Nat → List Nat) (st : TState) (o : V3)
    (e : ChunkGPUState) (C : V3)
    (he : lookupA st.chunk_gpu_states o = some e) (hCo : C ≠ o) :
    pollReady (readback_migrate g st o) C = pollReady st C := by
  rw [migrate_eq g st o e he, pollReady_char, pollReady_char]
  unfold stateReady
  try dsimp only
  rw [lookupA_insertA_ne st.sdf_cache (CKey.byCoord o) (CKey.byCoord C) _
    (byCoord_inj hCo), lookupA_eraseA_ne st.chunk_gpu_states o C hCo]

theorem migrate_poll_self (g : Nat → List Nat) (st : TState) (o : V3)
    (e : ChunkGPUState) (he : lookupA st.chunk_gpu_states o = some e) :
    pollReady (readback_migrate g st o) o = true := by
  rw [migrate_eq g st o e he, pollReady_char]
  try dsimp only
  rw [lookupA_insertA_self]
  simp [migrateEntry_ready]

theorem dbf_poll_ne (a : Nat → Bool) (st : TState) (o C : V3) (lod : Int)
    (hCo : C ≠ o) :
    pollReady (dispatchBeginFn a st o lod) C = pollReady st C := by
  rw [pollReady_char, pollReady_char, dbf_cache]
  have hsr : stateReady (dispatchBeginFn a st o lod) C =
      stateReady st C := by
    unfold stateReady
    rw [dbf_states_ne a st o C lod hCo]
  rw [hsr]

theorem dff_poll (st : TState) (o C : V3) (lod : Int) :
    pollReady (dispatchFinishFn st o lod) C = pollReady st C := by
  have hsr : stateReady (dispatchFinishFn st o lod) C =
      stateReady st C := by
    unfold stateReady
    rcases dff_states st o C lod with heq2 | ⟨e, he1, he2⟩
    · rw [heq2]
    · rw [he1, he2]
  rw [pollReady_char, pollReady_char, dff_cache, hsr]

theorem step_poll (a : Nat → Bool) (g : Nat → List Nat) {s s2 : TState}
    (C : V3) (hstep : TrStep a g s s2) (h : pollReady s C = true) :
    pollReady s2 C = true := by
  cases hstep with
  | enqueue o lod p =>
      have hf := enqueue_frame s o lod p
      rw [pollReady_congr C hf.1 hf.2.1]
      exact h
  | dispatchBegin o lod hc hs =>
      by_cases hCo : C = o
      · subst hCo
        rw [pollReady_char, hc] at h
        unfold stateReady at h
        rw [hs] at h
        exact absurd h (by simp)
      · rw [dbf_poll_ne a s o C lod hCo]
        exact h
  | dispatchFinish o lod hp =>
      rw [dff_poll s o C lod]
      exact h
  | workerMark os t =>
      exact foldl_pres (markOne t)
        (fun s3 o3 hs3 => markOne_poll t s3 o3 C hs3) os s h
  | workerMigrate o e he hcomp =>
      by_cases hCo : C = o
      · subst hCo
        exact migrate_poll_self g s C e he
      · rw [migrate_poll_ne g s o e C he hCo]
        exact h

theorem markOne_inv (t : Nat) (s : TState) (o : V3) (h : InvT s) :
    InvT (markOne t s o) := by
  obtain ⟨h1, h2, h3, h4⟩ := h
  rcases markOne_cases t s o with hsame | ⟨e, he, hcomp, heq⟩
  · rw [hsame]; exact ⟨h1, h2, h3, h4⟩
  · rw [heq]
    refine ⟨?_, ?_, ?_, ?_⟩
    · intro C e2 hle hc2
      try dsimp only at hle ⊢
      by_cases hCo : C = o
      · subst hCo
        exact List.mem_cons_self C _
      · rw [lookupA_insertA_ne _ o C _ hCo] at hle
        exact List.mem_cons_of_mem o (h1 C e2 hle hc2)
    · intro C d hd
      try dsimp only at hd ⊢
      have hcd := h2 C d hd
      exact ⟨List.mem_cons_of_mem o hcd.1, hcd.2⟩
    · intro C hsome
      try dsimp only at hsome ⊢
      by_cases hCo : C = o
      · subst hCo
        exact h3 C (by rw [he]; rfl)
      · rw [lookupA_insertA_ne _ o C _ hCo] at hsome
        exact h3 C hsome
    · intro C hC
      try dsimp only at hC
      rcases List.mem_cons.mp hC with hCo | hCm
      · subst hCo
        have hnone : lookupA s.sdf_cache (CKey.byCoord C) = none :=
          h3 C (by rw [he]; rfl)
        rw [pollReady_char]
        try dsimp only
        rw [hnone]
        unfold stateReady
        try dsimp only
        rw [lookupA_insertA_self]
      · rw [← heq]
        exact markOne_poll t s o C (h4 C hCm)

theorem step_inv (a : Nat → Bool) (g : Nat → List Nat) {s s2 : TState}
    (hstep : TrStep a g s s2) (h : InvT s) : InvT s2 := by
  obtain ⟨h1, h2, h3, h4⟩ := h
  cases hstep with
  | enqueue o lod p =>
      obtain ⟨hfc, hfs, hfe, hfp, hfd⟩ := enqueue_frame s o lod p
      refine ⟨?_, ?_, ?_, ?_⟩
      · intro C e hle hc2
        rw [hfs] at hle
        rw [hfe]
        exact h1 C e hle hc2
      · intro C d hd
        rw [hfc] at hd
        rw [hfe]
        exact h2 C d hd
      · intro C hsome
        rw [hfs] at hsome
        rw [hfc]
        exact h3 C hsome
      · intro C hC
        rw [hfe] at hC
        rw [pollReady_congr C hfc hfs]
        exact h4 C hC
  | dispatchBegin o lod hc hs =>
      refine ⟨?_, ?_, ?_, ?_⟩
      · intro C e2 hle hc2
        rw [dbf_ce]
        by_cases hCo : C = o
        · subst hCo
          rcases dbf_states_o a s C lod with heq2 | ⟨e3, he3, he4⟩
          · rw [heq2, hs] at hle
            exact Option.noConfusion hle
          · rw [he4] at hle
            injection hle with h5
            subst h5
            rw [he3] at hc2
            exact Bool.noConfusion hc2
        · rw [dbf_states_ne a s o C lod hCo] at hle
          exact h1 C e2 hle hc2
      · intro C d hd
        rw [dbf_cache] at hd
        rw [dbf_ce]
        exact h2 C d hd
      · intro C hsome
        rw [dbf_cache]
        by_cases hCo : C = o
        · subst hCo
          exact hc
        · rw [dbf_states_ne a s o C lod hCo] at hsome
          exact h3 C hsome
      · intro C hC
        rw [dbf_ce] at hC
        by_cases hCo : C = o
        · subst hCo
          have hp := h4 C hC
          rw [pollReady_char, hc] at hp
          try dsimp only at hp
          unfold stateReady at hp
          rw [hs] at hp
          simp at hp
        · rw [dbf_poll_ne a s o C lod hCo]
          exact h4 C hC
  | dispatchFinish o lod hp =>
      refine ⟨?_, ?_, ?_, ?_⟩
      · intro C e2 hle hc2
        rw [dff_ce]
        rcases dff_states s o C lod with heq2 | ⟨e, he1, he2⟩
        · rw [heq2] at hle
          exact h1 C e2 hle hc2
        · rw [he2] at hle
          injection hle with h5
          subst h5
          exact h1 C e he1 hc2
      · intro C d hd
        rw [dff_cache] at hd
        rw [dff_ce]
        exact h2 C d hd
      · intro C hsome
        rw [dff_cache]
        rcases dff_states s o C lod with heq2 | ⟨e, he1, he2⟩
        · rw [heq2] at hsome
          exact h3 C hsome
        · exact h3 C (by rw [he1]; rfl)
      · intro C hC
        rw [dff_ce] at hC
        rw [dff_poll s o C lod]
        exact h4 C hC
  | workerMark os t =>
      exact foldl_pres (markOne t)
        (fun s3 o3 hs3 => markOne_inv t s3 o3 hs3) os s ⟨h1, h2, h3, h4⟩
  | workerMigrate o e he hcomp =>
      rw [migrate_eq g s o e he]
      refine ⟨?_, ?_, ?_, ?_⟩
      · intro C e2 hle hc2
        try dsimp only at hle ⊢
        by_cases hCo : C = o
        · subst hCo
          rw [lookupA_eraseA_self] at hle
          exact Option.noConfusion hle
        · rw [lookupA_eraseA_ne _ o C hCo] at hle
          exact h1 C e2 hle hc2
      · intro C d hd
        try dsimp only at hd ⊢
        by_cases hCo : C = o
        · subst hCo
          rw [lookupA_insertA_self] at hd
          injection hd with hd2
          subst hd2
          exact ⟨h1 C e he hcomp, migrateEntry_ready g e⟩
        · rw [lookupA_insertA_ne _ _ _ _ (byCoord_inj hCo)] at hd
          exact h2 C d hd
      · intro C hsome
        try dsimp only at hsome ⊢
        by_cases hCo : C = o
        · subst hCo
          rw [lookupA_eraseA_self] at hsome
          simp at hsome
        · rw [lookupA_eraseA_ne _ o C hCo] at hsome
          rw [lookupA_insertA_ne _ _ _ _ (byCoord_inj hCo)]
          exact h3 C hsome
      · intro C hC
        try dsimp only at hC
        by_cases hCo : C = o
        · subst hCo
          rw [← migrate_eq g s C e he]
          exact migrate_poll_self g s C e he
        · rw [← migrate_eq g s o e he]
          rw [migrate_poll_ne g s o e C he hCo]
          exact h4 C hC

theorem initT_inv : InvT initTState := by
  refine ⟨?_, ?_, ?_, ?_⟩
  · intro C e hle
    exact absurd hle (by simp [initTState, lookupA])
  · intro C d hd
    exact absurd hd (by simp [initTState, lookupA])
  · intro C hsome
    exact absurd hsome (by simp [initTState, lookupA])
  · intro C hC
    exact absurd hC (by simp [initTState])

theorem reach_inv (a : Nat → Bool) (g : Nat → List Nat) {s : TState}
    (h : ReachT a g s) : InvT s := by
  induction h with
  | refl => exact initT_inv
  | tail hab hbc ih => exact step_inv a g hbc ih

/-- C5: in every state reachable through the asynchronous pipeline, the
non-blocking poll `get_chunk_gpu_textures` reports a coordinate ready
exactly when the background completion thread has observed GPU completion
for it, and readiness is monotonic: no pipeline event (enqueue, dispatch
begin or finish, worker completion marking, worker migration from the
in-flight map to the cache) ever flips a ready coordinate back to not
ready. -/
theorem C5_poll_monotonic (a : Nat → Bool) (g : Nat → List Nat)
    (s : TState) (h : ReachT a g s) (C : V3) :
    (pollReady s C = true ↔ C ∈ s.completedEver) ∧
    (∀ s2 : TState, TrStep a g s s2 →
      pollReady s C = true → pollReady s2 C = true) := by
  obtain ⟨h1, h2, h3, h4⟩ := reach_inv a g h
  refine ⟨⟨?_, h4 C⟩, ?_⟩
  · intro hp
    rw [pollReady_char] at hp
    cases hd : lookupA s.sdf_cache (CKey.byCoord C) with
    | some d => exact (h2 C d hd).1
    | none =>
        rw [hd] at hp
        try dsimp only at hp
        unfold stateReady at hp
        cases he : lookupA s.chunk_gpu_states C with
        | none =>
            rw [he] at hp
            simp at hp
        | some e =>
            rw [he] at hp
            try dsimp only at hp
            exact h1 C e he hp
  · intro s2 hstep hp
    exact step_poll a g C hstep hp

theorem C5_poll_monotonic_witness :
    ReachT (fun _ => true) (fun _ => []) initTState ∧
    ((pollReady initTState originA = true ↔
        originA ∈ initTState.completedEver) ∧
      (∀ s2 : TState, TrStep (fun _ => true) (fun _ => []) initTState s2 →
        pollReady initTState originA = true →
        pollReady s2 originA = true)) :=
  ⟨Relation.ReflTransGen.refl,
   C5_poll_monotonic (fun _ => true) (fun _ => []) initTState
     Relation.ReflTransGen.refl originA⟩

theorem lookupA_cons_self {K V : Type} [DecidableEq K]
    (l : List (K × V)) (k : K) (v : V) :
    lookupA ((k, v) :: l) k = some v := by
  simp [lookupA]

theorem lookupA_cons_ne {K V : Type} [DecidableEq K]
    (l : List (K × V)) (k k2 : K) (v : V) (h : k2 ≠ k) :
    lookupA ((k, v) :: l) k2 = lookupA l k2 := by
  simp [lookupA, h]

theorem markOne_dlod (t : Nat) (s : TState) (o : V3) :
    (markOne t s o).dlod = s.dlod := by
  rcases markOne_cases t s o with hsame | ⟨e, he, hcomp, heq⟩
  · rw [hsame]
  · rw [heq]

theorem markOne_cache (t : Nat) (s : TState) (o : V3) :
    (markOne t s o).sdf_cache = s.sdf_cache := by
  rcases markOne_cases t s o with hsame | ⟨e, he, hcomp, heq⟩
  · rw [hsame]
  · rw [heq]

theorem markOne_states (t : Nat) (s : TState) (o C : V3)
    (e2 : ChunkGPUState)
    (h : lookupA (markOne t s o).chunk_gpu_states C = some e2) :
    lookupA s.chunk_gpu_states C = some e2 ∨
    ∃ e : ChunkGPUState, lookupA s.chunk_gpu_states C = some e ∧
      e2 = { e with gpu_complete := true, completion_time_us := t } := by
  rcases markOne_cases t s o with hsame | ⟨e, he, hcomp, heq⟩
  · rw [hsame] at h
    left
    exact h
  · rw [heq] at h
    try dsimp only at h
    by_cases hCo : C = o
    · subst hCo
      rw [lookupA_insertA_self] at h
      injection h with h2
      right
      exact ⟨e, he, h2.symm⟩
    · rw [lookupA_insertA_ne _ o C _ hCo] at h
      left
      exact h

/-- Keys of the dictionary built by the worker when migrating a completed
chunk: the CPU byte-buffer keys are present exactly when the entry's
`physics_needed` flag was set, provided the readback oracle never returns
an empty buffer. -/
theorem migrateEntry_keys (g : Nat → List Nat) (e : ChunkGPUState)
    (hg : ∀ t, g t ≠ []) :
    hasKeyD (migrate_entry g e) DKey.sdfData = e.physics_needed ∧
    hasKeyD (migrate_entry g e) DKey.matData = e.physics_needed := by
  unfold migrate_entry
  cases hp : e.physics_needed with
  | false => simp [hasKeyD, lookupA]
  | true =>
      have h1 : (g e.sdf_texture).isEmpty = false := by
        cases hgt : g e.sdf_texture with
        | nil => exact absurd hgt (hg e.sdf_texture)
        | cons x xs => rfl
      have h2 : (g e.material_texture).isEmpty = false := by
        cases hgt : g e.material_texture with
        | nil => exact absurd hgt (hg e.material_texture)
        | cons x xs => rfl
      simp [hasKeyD, lookupA, h1, h2]

/-- Pipeline events with each `dispatch_chunk_async` call taken as a
single atomic event (its two lock sections — texture allocation plus
state insertion, then the `physics_needed`/`lod` flag update — run with
no intervening worker activity).  This is the amendment under which the
readback-gating property holds. -/
inductive TrStepA (allocOk : Nat → Bool) (gpuTex : Nat → List Nat) :
    TState → TState → Prop
  | enqueue (st : TState) (o : V3) (lod : Int) (p : V3) :
      TrStepA allocOk gpuTex st (enqueue_chunk_request st o lod p)
  | dispatch (st : TState) (o : V3) (lod : Int)
      (hc : lookupA st.sdf_cache (CKey.byCoord o) = none)
      (hs : lookupA st.chunk_gpu_states o = none) :
      TrStepA allocOk gpuTex st (dispatch_chunk_async allocOk st o lod)
  | workerMark (st : TState) (os : List V3) (t : Nat) :
      TrStepA allocOk gpuTex st (mark_complete_region st os t)
  | workerMigrate (st : TState) (o : V3) (e : ChunkGPUState)
      (he : lookupA st.chunk_gpu_states o = some e)
      (hcomp : e.gpu_complete = true) :
      TrStepA allocOk gpuTex st (readback_migrate gpuTex st o)

/-- Reachability from a fresh generator under atomic dispatches. -/
def ReachA (allocOk : Nat → Bool) (gpuTex : Nat → List Nat)
    (s : TState) : Prop :=
  Relation.ReflTransGen (TrStepA allocOk gpuTex) initTState s

/-- Readback-gating invariant: every in-flight entry carries the
`physics_needed` flag of its recorded dispatch LOD and empty CPU byte
buffers, and every cache entry carries the CPU byte-buffer keys exactly
when its recorded dispatch LOD was 0. -/
def Inv2 (s : TState) : Prop :=
  (∀ (C : V3) (e : ChunkGPUState),
    lookupA s.chunk_gpu_states C = some e →
    ∃ lod : Int, lookupA s.dlod C = some lod ∧
      e.physics_needed = decide (lod = 0) ∧
      e.sdf_data = [] ∧ e.mat_data = []) ∧
  (∀ (C : V3) (d : GDict),
    lookupA s.sdf_cache (CKey.byCoord C) = some d →
    ∃ lod : Int, lookupA s.dlod C = some lod ∧
      hasKeyD d DKey.sdfData = decide (lod = 0) ∧
      hasKeyD d DKey.matData = decide (lod = 0))

theorem markOne_inv2 (t : Nat) (s : TState) (o : V3) (h : Inv2 s) :
    Inv2 (markOne t s o) := by
  obtain ⟨h1, h2⟩ := h
  constructor
  · intro C e2 hle
    rw [markOne_dlod]
    rcases markOne_states t s o C e2 hle with hsm | ⟨e, he, he2⟩
    · exact h1 C e2 hsm
    · obtain ⟨lod, hl, hp, hs, hm⟩ := h1 C e he
      refine ⟨lod, hl, ?_, ?_, ?_⟩
      · rw [he2]
        exact hp
      · rw [he2]
        exact hs
      · rw [he2]
        exact hm
  · intro C d hd
    rw [markOne_cache] at hd
    rw [markOne_dlod]
    exact h2 C d hd

theorem stepA_inv2 (a : Nat → Bool) (g : Nat → List Nat)
    (hg : ∀ t, g t ≠ []) {s s2 : TState}
    (hstep : TrStepA a g s s2) (h : Inv2 s) : Inv2 s2 := by
  obtain ⟨h1, h2⟩ := h
  cases hstep with
  | enqueue o lod p =>
      obtain ⟨hfc, hfs, hfe, hfp, hfd⟩ := enqueue_frame s o lod p
      constructor
      · intro C e hle
        rw [hfs] at hle
        rw [hfd]
        exact h1 C e hle
      · intro C d hd
        rw [hfc] at hd
        rw [hfd]
        exact h2 C d hd
  | dispatch o lod hc hs =>
      constructor
      · intro C e hle
        rw [dca_dlod]
        by_cases hCo : C = o
        · subst hCo
          rcases dca_states_self a s C lod hs with
            ⟨hsame, hnone⟩ | ⟨e2, hg2, hp2, hl2, hsd2, hmd2, hins⟩
          · rw [hnone] at hle
            exact Option.noConfusion hle
          · rw [hins, lookupA_insertA_self] at hle
            injection hle with h5
            subst h5
            exact ⟨lod, lookupA_cons_self _ _ _, hp2, hsd2, hmd2⟩
        · rw [dca_states_ne a s o C lod hCo] at hle
          rw [lookupA_cons_ne _ o C _ hCo]
          exact h1 C e hle
      · intro C d hd
        rw [dca_cache] at hd
        rw [dca_dlod]
        by_cases hCo : C = o
        · subst hCo
          rw [hd] at hc
          exact Option.noConfusion hc
        · rw [lookupA_cons_ne _ o C _ hCo]
          exact h2 C d hd
  | workerMark os t =>
      exact foldl_pres (markOne t)
        (fun s3 o3 hs3 => markOne_inv2 t s3 o3 hs3) os s ⟨h1, h2⟩
  | workerMigrate o e he hcomp =>
      rw [migrate_eq g s o e he]
      constructor
      · intro C e2 hle
        try dsimp only at hle ⊢
        by_cases hCo : C = o
        · subst hCo
          rw [lookupA_eraseA_self] at hle
          exact Option.noConfusion hle
        · rw [lookupA_eraseA_ne _ o C hCo] at hle
          exact h1 C e2 hle
      · intro C d hd
        try dsimp only at hd ⊢
        by_cases hCo : C = o
        · subst hCo
          rw [lookupA_insertA_self] at hd
          injection hd with hd2
          subst hd2
          obtain ⟨lod, hl, hp, hsd, hmd⟩ := h1 C e he
          obtain ⟨hk1, hk2⟩ := migrateEntry_keys g e hg
          refine ⟨lod, hl, ?_, ?_⟩
          · rw [hk1, hp]
          · rw [hk2, hp]
        · rw [lookupA_insertA_ne _ _ _ _ (byCoord_inj hCo)] at hd
          exact h2 C d hd

theorem initT_inv2 : Inv2 initTState := by
  constructor
  · intro C e hle
    exact absurd hle (by simp [initTState, lookupA])
  · intro C d hd
    exact absurd hd (by simp [initTState, lookupA])

theorem reachA_inv2 (a : Nat → Bool) (g : Nat → List Nat)
    (hg : ∀ t, g t ≠ []) {s : TState} (h : ReachA a g s) : Inv2 s := by
  induction h with
  | refl => exact initT_inv2
  | tail hab hbc ih => exact stepA_inv2 a g hg hbc ih

/-- C2 (amended): provided each `dispatch_chunk_async` call runs
atomically with respect to the background worker — its state-insertion
and flag-update lock sections are not interleaved with worker events —
and the texture readback oracle never returns an empty buffer, the
readback gating holds in every reachable state: a chunk dispatched with
LOD `lod` has an in-flight entry whose `physics_needed` flag is set
exactly when `lod = 0` and whose CPU byte buffers are empty, and once
migrated its cache entry carries the CPU SDF/material byte-buffer keys
exactly when `lod = 0`; the flag is never modified after the dispatch
that set it, being pinned to the recorded dispatch LOD throughout. -/
theorem C2_readback_gating_amended (a : Nat → Bool) (g : Nat → List Nat)
    (hg : ∀ t, g t ≠ []) (s : TState) (h : ReachA a g s) (C : V3)
    (lod : Int) (hl : lookupA s.dlod C = some lod) :
    (∀ e : ChunkGPUState, lookupA s.chunk_gpu_states C = some e →
      e.physics_needed = decide (lod = 0) ∧
      e.sdf_data = [] ∧ e.mat_data = []) ∧
    (∀ d : GDict, lookupA s.sdf_cache (CKey.byCoord C) = some d →
      hasKeyD d DKey.sdfData = decide (lod = 0) ∧
      hasKeyD d DKey.matData = decide (lod = 0)) := by
  obtain ⟨h1, h2⟩ := reachA_inv2 a g hg h
  constructor
  · intro e hle
    obtain ⟨lod2, hl2, hp, hs, hm⟩ := h1 C e hle
    rw [hl] at hl2
    injection hl2 with h5
    subst h5
    exact ⟨hp, hs, hm⟩
  · intro d hd
    obtain ⟨lod2, hl2, hk1, hk2⟩ := h2 C d hd
    rw [hl] at hl2
    injection hl2 with h5
    subst h5
    exact ⟨hk1, hk2⟩

/-- State after one atomic LOD-0 dispatch at `originA` on a fresh
generator. -/
def c2wA : TState := dispatch_chunk_async allocAll initTState originA 0

theorem C2_readback_gating_amended_witness :
    (∀ t, texStub t ≠ []) ∧
    ReachA allocAll texStub c2wA ∧
    lookupA c2wA.dlod originA = some 0 ∧
    ((∀ e : ChunkGPUState,
        lookupA c2wA.chunk_gpu_states originA = some e →
        e.physics_needed = decide ((0 : Int) = 0) ∧
        e.sdf_data = [] ∧ e.mat_data = []) ∧
      (∀ d : GDict,
        lookupA c2wA.sdf_cache (CKey.byCoord originA) = some d →
        hasKeyD d DKey.sdfData = decide ((0 : Int) = 0) ∧
        hasKeyD d DKey.matData = decide ((0 : Int) = 0))) :=
  ⟨fun t h => by simp [texStub] at h,
   Relation.ReflTransGen.single
     (TrStepA.dispatch initTState originA 0 rfl rfl),
   by decide,
   C2_readback_gating_amended allocAll texStub
     (fun t h => by simp [texStub] at h) c2wA
     (Relation.ReflTransGen.single
       (TrStepA.dispatch initTState originA 0 rfl rfl))
     originA 0 (by decide)⟩

/-- First lock section of a LOD-0 `dispatch_chunk_async` at `originA` on
a fresh generator: textures allocated and the in-flight entry inserted,
the `physics_needed`/`lod` flag update still pending. -/
def c2s1 : TState := dispatchBeginFn allocAll initTState originA 0

/-- The background worker observes GPU completion of `originA` before the
dispatching thread resumes. -/
def c2s2 : TState := mark_complete_region c2s1 [originA] 5

/-- The in-flight entry of `originA` as the worker finds it. -/
def c2e : ChunkGPUState :=
  (lookupA c2s2.chunk_gpu_states originA).getD
    { sdf_texture := 0, material_texture := 0, dispatch_time_us := 0,
      completion_time_us := 0, gpu_complete := false,
      cpu_readback_complete := false, physics_needed := false, lod := 0,
      sdf_data := [], mat_data := [] }

/-- The worker migrates `originA` into the cache, reading the still-unset
`physics_needed` flag. -/
def c2s3 : TState := readback_migrate texStub c2s2 originA

/-- The dispatching thread finally runs its flag update, finding no
in-flight entry to update. -/
def c2s4 : TState := dispatchFinishFn c2s3 originA 0

/-- The cache dictionary produced for `originA` by the migration. -/
def c2d : GDict :=
  (lookupA c2s3.sdf_cache (CKey.byCoord originA)).getD []

/-- C2 (counterexample to the unamended claim): the flag update of
`dispatch_chunk_async` runs in a second lock section after the one that
inserts the in-flight entry, so the background worker can observe GPU
completion and migrate the chunk in between.  Concretely, on a fresh
generator, a LOD-0 dispatch of `originA` interleaved with the worker
(entry insertion; completion marking; migration; late flag update)
yields a trace of pipeline events in which the dispatch LOD is recorded
as 0 and the readback oracle never returns an empty buffer, yet the
migrated cache entry for `originA` carries no CPU SDF or material
byte-buffer key — the poll reports the chunk ready with no CPU data ever
attached — and the late flag update leaves the cache entry unchanged:
the LOD-0 chunk's CPU-side byte buffers are never populated, refuting
the claim that they always are once GPU completion is observed. -/
theorem C2_readback_race_counterexample :
    TrStep allocAll texStub initTState c2s1 ∧
    TrStep allocAll texStub c2s1 c2s2 ∧
    TrStep allocAll texStub c2s2 c2s3 ∧
    TrStep allocAll texStub c2s3 c2s4 ∧
    lookupA c2s1.dlod originA = some 0 ∧
    (∀ t, texStub t ≠ []) ∧
    pollReady c2s3 originA = true ∧
    lookupA c2s3.sdf_cache (CKey.byCoord originA) = some c2d ∧
    hasKeyD c2d DKey.sdfData = false ∧
    hasKeyD c2d DKey.matData = false ∧
    lookupA c2s4.sdf_cache (CKey.byCoord originA) = some c2d := by
  refine ⟨?_, ?_, ?_, ?_, ?_, ?_, ?_, ?_, ?_, ?_, ?_⟩
  · exact TrStep.dispatchBegin initTState originA 0 rfl rfl
  · exact TrStep.workerMark c2s1 [originA] 5
  · exact TrStep.workerMigrate c2s2 originA c2e (by decide) (by decide)
  · exact TrStep.dispatchFinish c2s3 originA 0 (by decide)
  · decide
  · intro t h
    simp [texStub] at h
  · decide
  · decide
  · decide
  · decide
  · decide
